import Mathlib

set_option maxRecDepth 100000

/-!
Verification of the ProjetoSRAG scripts.

The pandas data frames manipulated by the scripts are embedded as
column-major tables of cells; Python string operations used by the code
(`str.strip`, `str.upper`, `str.replace`) are embedded as executable
functions on character lists.
-/

namespace SRAG

/-- A cell of a pandas data frame: missing (`NaN`), a Python string,
or a number (the numeric cells the scripts compare arithmetically). -/
inductive Cell where
  | null : Cell
  | cstr : String → Cell
  | cnum : Int → Cell
deriving DecidableEq, Repr

/-- Python whitespace characters, the set stripped by `str.strip()`. -/
def isPySpace (c : Char) : Bool :=
  c = ' ' || c = '\t' || c = '\n' || c = '\x0d' || c = '\x0b' || c = '\x0c'

/-- `str.strip()` on a character list: drop whitespace on both ends. -/
def stripChars (l : List Char) : List Char :=
  ((l.dropWhile isPySpace).reverse.dropWhile isPySpace).reverse

/-- `str.rstrip()` on a character list. -/
def rstripChars (l : List Char) : List Char :=
  (l.reverse.dropWhile isPySpace).reverse

/-- `str.upper()` for the characters appearing in this repository
(ASCII letters plus the accented letters of the Portuguese labels). -/
def pyCharUpper (c : Char) : Char :=
  if 'a' ≤ c ∧ c ≤ 'z' then Char.ofNat (c.toNat - 32)
  else if c = 'á' then 'Á' else if c = 'à' then 'À'
  else if c = 'â' then 'Â' else if c = 'ã' then 'Ã'
  else if c = 'é' then 'É' else if c = 'ê' then 'Ê'
  else if c = 'í' then 'Í' else if c = 'ó' then 'Ó'
  else if c = 'ô' then 'Ô' else if c = 'õ' then 'Õ'
  else if c = 'ú' then 'Ú' else if c = 'ü' then 'Ü'
  else if c = 'ç' then 'Ç' else c

/-- `str.replace('.0', '')`, the one replacement the scripts perform:
delete the leftmost non-overlapping occurrences of `".0"`. -/
def dropDotZero : List Char → List Char
  | [] => []
  | '.' :: '0' :: rest => dropDotZero rest
  | c :: rest => c :: dropDotZero rest

/-- `str.strip()` on strings. -/
def pyStrip (s : String) : String := String.mk (stripChars s.data)

/-- `str.rstrip()` on strings. -/
def pyRstrip (s : String) : String := String.mk (rstripChars s.data)

/-- `str.upper()` on strings. -/
def pyUpper (s : String) : String := String.mk (s.data.map pyCharUpper)

/-- `str.replace('.0', '')` on strings. -/
def pyReplaceDotZero (s : String) : String :=
  String.mk (dropDotZero s.data)

/-- A cell of a float-dtype column: null (`NaN`) or a number. -/
def Cell.numericLike : Cell → Bool
  | Cell.cstr _ => false
  | _ => true

/-- `str(x)` of a cell, as pandas' `astype(str)` renders it:
a missing value prints as `"nan"`. -/
def pyStr : Cell → String
  | Cell.null => "nan"
  | Cell.cstr s => s
  | Cell.cnum q => toString q

/-- The dtype of a data-frame column, as far as the scripts inspect it:
`select_dtypes(include=['object'])` and `astype(object)`. -/
inductive Dtype where
  | object : Dtype
  | numeric : Dtype
deriving DecidableEq, Repr

/-- A column of a data frame. -/
structure Col where
  name : String
  dtype : Dtype
  cells : List Cell
deriving DecidableEq, Repr

/-- A pandas data frame, column-major. -/
structure Df where
  cols : List Col
deriving DecidableEq, Repr

/-- Number of rows: length of the first column (0 for a column-less frame). -/
def Df.nRows (df : Df) : Nat :=
  match df.cols with
  | [] => 0
  | c :: _ => c.cells.length

/-- Every column has the frame's row count. -/
def Df.WellFormed (df : Df) : Prop :=
  ∀ c ∈ df.cols, c.cells.length = df.nRows

instance (df : Df) : Decidable df.WellFormed := by
  unfold Df.WellFormed; infer_instance

/-- The row at index `i`: the `i`-th cell of every column. -/
def Df.rowAt (df : Df) (i : Nat) : List Cell :=
  df.cols.map (fun c => c.cells.getD i Cell.null)

/-- The rows of the frame, in order. -/
def Df.rows (df : Df) : List (List Cell) :=
  (List.range df.nRows).map df.rowAt

/-- The column names, in order. -/
def Df.colNames (df : Df) : List String :=
  df.cols.map Col.name

/-- The first column with the given name, if any (`df[name]`). -/
def Df.findCol (df : Df) (name : String) : Option Col :=
  df.cols.find? (fun c => c.name = name)

/-- The cell in column `j`, row `i` (both positional). -/
def Df.cellAt (df : Df) (j i : Nat) : Option Cell :=
  df.cols[j]?.bind (fun c => c.cells[i]?)

/-- Keep, in each column, only the cells whose row index is in `idxs`
(in the order of `idxs`).  This is the row-selection primitive shared by
`drop_duplicates` and the boolean-mask filters. -/
def Df.selectRows (df : Df) (idxs : List Nat) : Df :=
  ⟨df.cols.map (fun c => { c with cells := idxs.map (fun i => c.cells.getD i Cell.null) })⟩

/-!  The code-to-label dictionary of `aplicar_categorias_completo`
(`processar_srag.py`), in the insertion order of the Python dict. -/

/-- One category: the ordered code → label association of a column. -/
abbrev Mapa := List (String × String)

/-- The `categorias` dictionary. -/
def categorias : List (String × Mapa) := [
  ("NU_NOTIFIC", []),
  ("DT_NOTIFIC", []),
  ("SEM_NOT", []),
  ("DT_SIN_PRI", []),
  ("SEM_PRI", []),
  ("SG_UF_NOT", []),
  ("ID_REGIONA", []),
  ("CO_REGIONA", []),
  ("ID_MUNICIP", []),
  ("CO_MUN_NOT", []),
  ("ID_UNIDADE", []),
  ("TEM_CPF", [("1", "Sim"), ("2", "Não")]),
  ("ESTRANG", [("1", "Sim"), ("2", "Não")]),
  ("CS_SEXO", [("1", "Masculino"), ("2", "Feminino"), ("9", "Ignorado")]),
  ("DT_NASC", []),
  ("NU_IDADE_N", []),
  ("TP_IDADE", [("1", "Dia"), ("2", "Mês"), ("3", "Ano")]),
  ("CS_GESTANT", [("1", "1º Trimestre"), ("2", "2º Trimestre"), ("3", "3º Trimestre"),
                  ("4", "Idade Gestacional Ignorada"), ("5", "Não"), ("6", "Não se aplica"),
                  ("9", "Ignorado")]),
  ("CS_RACA", [("1", "Branca"), ("2", "Preta"), ("3", "Amarela"), ("4", "Parda"),
               ("5", "Indígena"), ("9", "Ignorado")]),
  ("CS_ESCOL_N", [("0", "Sem escolaridade/Analfabeto"),
                  ("1", "Fundamental 1º ciclo (1ª a 5ª série)"),
                  ("2", "Fundamental 2º ciclo (6ª a 9ª série)"),
                  ("3", "Médio (1º ao 3º ano)"),
                  ("4", "Superior"),
                  ("5", "Não se aplica"),
                  ("9", "Ignorado")]),
  ("ID_PAIS", []),
  ("SG_UF", []),
  ("ID_RG_RESI", []),
  ("CO_RG_RESI", []),
  ("ID_MN_RESI", []),
  ("NOSOCOMIAL", [("1", "Sim"), ("2", "Não"), ("9", "Ignorado")]),
  ("AVE_SUINO", [("1", "Sim"), ("2", "Não"), ("9", "Ignorado")]),
  ("OUT_ANIM", []),
  ("FEBRE", [("1", "Sim"), ("2", "Não"), ("9", "Ignorado")]),
  ("TOSSE", [("1", "Sim"), ("2", "Não"), ("9", "Ignorado")]),
  ("GARGANTA", [("1", "Sim"), ("2", "Não"), ("9", "Ignorado")]),
  ("DISPNEIA", [("1", "Sim"), ("2", "Não"), ("9", "Ignorado")]),
  ("DESC_RESP", [("1", "Sim"), ("2", "Não"), ("9", "Ignorado")]),
  ("SATURACAO", [("1", "Sim"), ("2", "Não"), ("9", "Ignorado")]),
  ("DIARREIA", [("1", "Sim"), ("2", "Não"), ("9", "Ignorado")]),
  ("VOMITO", [("1", "Sim"), ("2", "Não"), ("9", "Ignorado")]),
  ("DOR_ABD", [("1", "Sim"), ("2", "Não"), ("9", "Ignorado")]),
  ("FADIGA", [("1", "Sim"), ("2", "Não"), ("9", "Ignorado")]),
  ("PERD_OLFT", [("1", "Sim"), ("2", "Não"), ("9", "Ignorado")]),
  ("PERD_PALA", [("1", "Sim"), ("2", "Não"), ("9", "Ignorado")]),
  ("OUTRO_SIN", [("1", "Sim"), ("2", "Não"), ("9", "Ignorado")]),
  ("OUTRO_DES", []),
  ("FATOR_RISC", [("1", "Sim"), ("2", "Não"), ("9", "Ignorado")]),
  ("PUERPERA", [("1", "Sim"), ("2", "Não"), ("9", "Ignorado")]),
  ("CARDIOPATI", [("1", "Sim"), ("2", "Não"), ("9", "Ignorado")]),
  ("HEMATOLOGI", [("1", "Sim"), ("2", "Não"), ("9", "Ignorado")]),
  ("SIND_DOWN", [("1", "Sim"), ("2", "Não"), ("9", "Ignorado")]),
  ("HEPATICA", [("1", "Sim"), ("2", "Não"), ("9", "Ignorado")]),
  ("ASMA", [("1", "Sim"), ("2", "Não"), ("9", "Ignorado")]),
  ("DIABETES", [("1", "Sim"), ("2", "Não"), ("9", "Ignorado")]),
  ("NEUROLOGIC", [("1", "Sim"), ("2", "Não"), ("9", "Ignorado")]),
  ("PNEUMOPATI", [("1", "Sim"), ("2", "Não"), ("9", "Ignorado")]),
  ("IMUNODEPRE", [("1", "Sim"), ("2", "Não"), ("9", "Ignorado")]),
  ("RENAL", [("1", "Sim"), ("2", "Não"), ("9", "Ignorado")]),
  ("OBESIDADE", [("1", "Sim"), ("2", "Não"), ("9", "Ignorado")]),
  ("OBES_IMC", []),
  ("OUT_MORBI", [("1", "Sim"), ("2", "Não"), ("9", "Ignorado")]),
  ("MORB_DESC", []),
  ("VACINA", [("1", "Sim"), ("2", "Não"), ("9", "Ignorado")]),
  ("DT_UT_DOSE", []),
  ("VACINA_COV", [("1", "Sim"), ("2", "Não"), ("9", "Ignorado")]),
  ("DOSE_1_COV", []),
  ("DOSE_2_COV", []),
  ("DOSE_REF", []),
  ("FAB_COV_1", []),
  ("FAB_COV_2", []),
  ("FAB_COVREF", []),
  ("LAB_PR_COV", []),
  ("ANTIVIRAL", [("1", "Sim"), ("2", "Não"), ("9", "Ignorado")]),
  ("TP_ANTIVIR", [("1", "Oseltamivir"), ("2", "Zanamivir"), ("3", "Outro")]),
  ("DT_INTERNA", []),
  ("SG_UF_INTE", []),
  ("ID_RG_INTE", []),
  ("CO_RG_INTE", []),
  ("ID_MN_INTE", []),
  ("CO_MU_INTE", []),
  ("UTI", [("1", "Sim"), ("2", "Não"), ("9", "Ignorado")]),
  ("DT_ENTUTI", []),
  ("DT_SAIDUTI", []),
  ("SUPORT_VEN", [("1", "Sim, invasivo"), ("2", "Sim, não invasivo"), ("3", "Não"),
                  ("9", "Ignorado")]),
  ("RAIOX_RES", [("1", "Normal"), ("2", "Infiltrado intersticial"), ("3", "Consolidação"),
                 ("4", "Misto"), ("5", "Outro"), ("6", "Não realizado"), ("9", "Ignorado")]),
  ("RAIOX_OUT", []),
  ("DT_RAIOX", []),
  ("TOMO_RES", [("1", "Típico COVID-19"), ("2", "Indeterminado COVID-19"),
                ("3", "Atípico COVID-19"), ("4", "Negativo para Pneumonia"),
                ("5", "Outro"), ("6", "Não realizado"), ("9", "Ignorado")]),
  ("TOMO_OUT", []),
  ("DT_TOMO", []),
  ("AMOSTRA", [("1", "Sim"), ("2", "Não"), ("9", "Ignorado")]),
  ("DT_COLETA", []),
  ("TP_AMOSTRA", [("1", "Secreção de Nasoorofaringe"),
                  ("2", "Lavado Broco-alveolar"),
                  ("3", "Tecido post-mortem"),
                  ("4", "Outra, qual?"),
                  ("5", "LCR"),
                  ("9", "Ignorado")]),
  ("OUT_AMOST", []),
  ("TP_TES_AN", [("1", "Imunofluorescência (IF)"), ("2", "Teste rápido antigênico")]),
  ("DT_RES_AN", []),
  ("RES_AN", [("1", "Positivo"), ("2", "Negativo"), ("3", "Inconclusivo"),
              ("4", "Não realizado"), ("5", "Aguardando resultado"), ("9", "Ignorado")]),
  ("POS_AN_FLU", [("1", "Sim"), ("2", "Não"), ("9", "Ignorado")]),
  ("TP_FLU_AN", [("1", "Influenza A"), ("2", "Influenza B")]),
  ("POS_AN_OUT", [("1", "Sim"), ("2", "Não"), ("9", "Ignorado")]),
  ("DS_AN_OUT", []),
  ("PCR_RESUL", [("1", "Detectável"), ("2", "Não Detectável"), ("3", "Inconclusivo"),
                 ("4", "Não realizado"), ("5", "Aguardando Resultado"), ("9", "Ignorado")]),
  ("DT_PCR", []),
  ("POS_PCRFLU", [("1", "Sim"), ("2", "Não"), ("9", "Ignorado")]),
  ("TP_FLU_PCR", [("1", "Influenza A"), ("2", "Influenza B")]),
  ("PCR_FLUASU", [("1", "Influenza A(H1N1)pdm09"),
                  ("2", "Influenza A (H3N2)"),
                  ("3", "Influenza A não subtipado"),
                  ("4", "Influenza A não subtipável"),
                  ("5", "Inconclusivo"),
                  ("6", "Outro, especifique")]),
  ("FLUASU_OUT", []),
  ("AN_SARS2", [("1", "Sim")]),
  ("AN_VSR", [("1", "Sim")]),
  ("CLASSI_FIN", [("1", "SRAG por influenza"),
                  ("2", "SRAG por outro vírus respiratório"),
                  ("3", "SRAG por outro agente etiológico"),
                  ("4", "SRAG não especificado"),
                  ("5", "SRAG por covid-19")]),
  ("CLASSI_OUT", []),
  ("CRITERIO", [("1", "Laboratorial"),
                ("2", "Clínico Epidemiológico"),
                ("3", "Clínico"),
                ("4", "Clínico Imagem")]),
  ("EVOLUCAO", [("1", "Cura"), ("2", "Óbito"), ("3", "Óbito por outras causas"),
                ("9", "Ignorado")]),
  ("DT_EVOLUCA", []),
  ("DT_ENCERRA", []),
  ("DT_DIGITA", []),
  ("PAC_DSCBO", [])
]

/-- `todos_valores_texto`: upper-cased labels of every non-empty category. -/
def todosValoresTexto : List String :=
  categorias.flatMap (fun p => p.2.map (fun q => pyUpper q.2))

/-- The `campos_checkbox` list. -/
def camposCheckbox : List String :=
  ["AN_SARS2", "AN_VSR", "AN_PARA1", "AN_PARA2", "AN_PARA3", "AN_ADENO", "AN_OUTRO",
   "PCR_SARS2", "PCR_VSR", "PCR_PARA1", "PCR_PARA2", "PCR_PARA3", "PCR_PARA4",
   "PCR_ADENO", "PCR_METAP", "PCR_BOCA", "PCR_RINO", "PCR_OUTRO"]

/-- Normalisation applied when collecting a column's unique values:
`astype(str).str.strip().str.upper()`. -/
def normValue (c : Cell) : String := pyUpper (pyStrip (pyStr c))

/-- The boolean mask of the category loop for one code:
`df[campo].astype(str).str.strip() == str(codigo).strip()` or, for a
non-null cell, `str(x).replace('.0', '') == str(codigo).strip()`. -/
def cellMatches (c : Cell) (codigo : String) : Bool :=
  (pyStrip (pyStr c) = pyStrip codigo) ||
    (c ≠ Cell.null && (pyReplaceDotZero (pyStr c) = pyStrip codigo))

/-- One step of the category loop: replace every cell matched by `codigo`
with `descricao` (the `if mascara.any()` guard is a no-op when nothing
matches). -/
def mapCodigo (cells : List Cell) (codigo descricao : String) : List Cell :=
  if cells.any (fun c => cellMatches c codigo) then
    cells.map (fun c => if cellMatches c codigo then Cell.cstr descricao else c)
  else cells

/-- First-occurrence deduplication, the order `pandas.unique` keeps. -/
def uniqueKeepFirst (l : List String) : List String :=
  uniqueKeepFirstGo l []
where uniqueKeepFirstGo : List String → List String → List String
  | [], _ => []
  | x :: rest, seen =>
    if x ∈ seen then uniqueKeepFirstGo rest seen
    else x :: uniqueKeepFirstGo rest (x :: seen)

/-- The non-null unique values of a column, normalised
(`dropna().astype(str).str.strip().str.upper().unique()`). -/
def valoresUnicos (cells : List Cell) : List String :=
  uniqueKeepFirst
    (cells.filterMap (fun c => if c = Cell.null then none else some (normValue c)))

/-- The already-mapped test of the category loop: the unique values
contain mapped label text (`valores_texto`) and nothing outside it
(`valores_originais` empty). -/
def skipCategoria (cells : List Cell) : Prop :=
  (valoresUnicos cells).filter (fun v => v ∈ todosValoresTexto) ≠ [] ∧
    (valoresUnicos cells).filter (fun v => v ∉ todosValoresTexto) = []

instance (cells : List Cell) : Decidable (skipCategoria cells) := by
  unfold skipCategoria; infer_instance

/-- Apply every code of a category in order (the `for codigo, descricao`
loop). -/
def foldMapa (mapa : Mapa) (cells : List Cell) : List Cell :=
  mapa.foldl (fun cs p => mapCodigo cs p.1 p.2) cells

/-- The per-column body of the regular category loop: skip the column when
it is already fully mapped, otherwise apply every code of the category. -/
def regularProcess (mapa : Mapa) (cells : List Cell) : List Cell :=
  if skipCategoria cells then cells
  else foldMapa mapa cells

/-- The checkbox mask: a non-null cell whose stripped string form is `'1'`
or `'1.0'`. -/
def maskSim (c : Cell) : Bool :=
  c ≠ Cell.null && (pyStrip (pyStr c) = "1" || pyStrip (pyStr c) = "1.0")

/-- The upper-cased non-null values inspected by the checkbox loop
(`dropna().astype(str).str.upper()`, no strip). -/
def cbValores (cells : List Cell) : List String :=
  cells.filterMap (fun c => if c = Cell.null then none else some (pyUpper (pyStr c)))

/-- The already-mapped test of the checkbox loop. -/
def cbJaMapeado (cells : List Cell) : Bool :=
  (cbValores cells).contains "SIM" || (cbValores cells).contains "NÃO"

/-- The cell rewrite of the checkbox loop. -/
def cbMapCell (c : Cell) : Cell :=
  if maskSim c then Cell.cstr "Sim"
  else if c ≠ Cell.null then Cell.cstr "Não" else c

/-- The per-column body of the checkbox loop: skip when the upper-cased
values already contain `"SIM"` or `"NÃO"`; otherwise, when some cell is
`'1'`/`'1.0'`, set those cells to `"Sim"` and every other non-null cell to
`"Não"`. -/
def checkboxProcess (cells : List Cell) : List Cell :=
  if cbJaMapeado cells then cells
  else if cells.any maskSim then cells.map cbMapCell
  else cells

/-- The regular category loop on one column: a column with a non-empty
category is converted with `astype(object)` and mapped; any other column
is untouched. -/
def regStage (c : Col) : Col :=
  match categorias.lookup c.name with
  | some mapa =>
    if mapa = [] then c
    else { c with dtype := Dtype.object, cells := regularProcess mapa c.cells }
  | none => c

/-- The checkbox loop on one column: a `campos_checkbox` column is
converted with `astype(object)` and checkbox-mapped; any other column is
untouched. -/
def cbStage (c : Col) : Col :=
  if camposCheckbox.contains c.name then
    { c with dtype := Dtype.object, cells := checkboxProcess c.cells }
  else c

/-- Processing of one column by `aplicar_categorias_completo`: the regular
category loop followed by the checkbox loop. -/
def processCol (c : Col) : Col :=
  cbStage (regStage c)

/-- `aplicar_categorias_completo`: every column processed independently. -/
def aplicarCategoriasCompleto (df : Df) : Df :=
  ⟨df.cols.map processCol⟩

/-!  `limpar_dados` (`processar_srag.py`). -/

/-- Indices kept by `df.drop_duplicates()`: the first occurrence of each
distinct row. -/
def Df.dedupKeepIdx (df : Df) : List Nat :=
  (List.range df.nRows).filter (fun i => df.rowAt i ∉ df.rows.take i)

/-- `df.drop_duplicates()`. -/
def Df.dropDuplicates (df : Df) : Df :=
  df.selectRows df.dedupKeepIdx

/-- `remover_colunas_nulas` at its default threshold `1.0`: drop the
columns whose null fraction is at least 1, i.e. the non-empty columns
holding only nulls (pandas keeps every column of a 0-row frame, since
`NaN >= 1.0` is false). -/
def removerColunasNulas (df : Df) : Df :=
  ⟨df.cols.filter (fun c => !(!c.cells.isEmpty && c.cells.all (fun x => x = Cell.null)))⟩

/-- The text-normalisation of `limpar_dados`:
`astype(str).str.strip().str.upper()` on one cell.  A null cell becomes
the string `"nan"` and hence the literal `"NAN"`. -/
def normalizeCell (c : Cell) : Cell :=
  Cell.cstr (pyUpper (pyStrip (pyStr c)))

/-- Normalise every object-dtype column. -/
def normalizeTextCols (df : Df) : Df :=
  ⟨df.cols.map (fun c =>
    if c.dtype = Dtype.object then { c with cells := c.cells.map normalizeCell } else c)⟩

/-- `limpar_dados`: drop duplicate rows, drop all-null columns, then
upper-case and strip every text column. -/
def limparDados (df : Df) : Df :=
  normalizeTextCols (removerColunasNulas df.dropDuplicates)

/-!  `filtrar_dados_srag.py`: the `TEMPO_UTI` filter step. -/

/-- The mask `df['TEMPO_UTI'] > 160` on one cell: true only for a numeric
cell strictly greater than 160 (`NaN > 160` is false in pandas). -/
def cellGt160 : Cell → Bool
  | Cell.cnum q => q > 160
  | _ => false

/-- Filter 1 of `filtrar_dados_srag`: keep the rows not matched by
`df['TEMPO_UTI'] > 160`; do nothing when the column is absent. -/
def filtrarTempoUti (df : Df) : Df :=
  match df.findCol "TEMPO_UTI" with
  | some tcol =>
    df.selectRows ((List.range df.nRows).filter
      (fun i => !cellGt160 (tcol.cells.getD i Cell.null)))
  | none => df

/-!  `unificacao.py`. -/

/-- `colunas_para_manter`. -/
def colunasParaManter : List String :=
  ["DT_NOTIFIC", "DT_SIN_PRI", "SG_UF_NOT", "ID_REGIONA",
   "ID_MUNICIP", "ID_UNIDADE", "CS_SEXO", "DT_NASC",
   "NU_IDADE_N", "TP_IDADE", "CS_GESTANT", "CS_RACA", "CS_ESCOL_N",
   "ID_PAIS", "SG_UF", "ID_RG_RESI", "ID_MN_RESI",
   "NOSOCOMIAL", "AVE_SUINO", "FEBRE", "TOSSE", "GARGANTA", "DISPNEIA", "DESC_RESP",
   "SATURACAO", "DIARREIA", "VOMITO", "OUTRO_SIN", "OUTRO_DES", "PUERPERA",
   "FATOR_RISC", "CARDIOPATI", "HEMATOLOGI", "SIND_DOWN", "HEPATICA", "ASMA",
   "DIABETES", "NEUROLOGIC", "PNEUMOPATI", "IMUNODEPRE", "RENAL", "OBESIDADE",
   "OBES_IMC", "OUT_MORBI", "MORB_DESC", "VACINA", "DT_UT_DOSE", "ANTIVIRAL",
   "TP_ANTIVIR", "DT_INTERNA", "SG_UF_INTE", "ID_RG_INTE",
   "ID_MN_INTE", "UTI", "DT_ENTUTI", "DT_SAIDUTI", "SUPORT_VEN",
   "RAIOX_RES", "RAIOX_OUT", "DT_RAIOX", "AMOSTRA", "DT_COLETA", "TP_AMOSTRA",
   "OUT_AMOST", "PCR_RESUL", "DT_PCR", "POS_PCRFLU", "TP_FLU_PCR", "PCR_FLUASU",
   "FLUASU_OUT", "CLASSI_FIN", "CLASSI_OUT", "CRITERIO", "EVOLUCAO", "DT_EVOLUCA",
   "DT_ENCERRA", "DT_DIGITA", "PAC_DSCBO", "DOR_ABD", "FADIGA", "PERD_OLFT",
   "PERD_PALA", "TOMO_RES", "TOMO_OUT", "DT_TOMO", "DS_AN_OUT", "TP_TES_AN",
   "DT_RES_AN", "RES_AN", "POS_AN_FLU", "TP_FLU_AN", "POS_AN_OUT", "AN_SARS2",
   "AN_VSR", "ESTRANG", "VACINA_COV", "DOSE_1_COV", "DOSE_2_COV", "DOSE_REF",
   "FAB_COV_1", "FAB_COV_2", "FAB_COVREF", "LAB_PR_COV"]

/-- `filtrar_colunas_existentes`: keep, in the order requested, exactly the
requested columns that exist (pandas column selection keeps every column
carrying a selected name). -/
def filtrarColunasExistentes (df : Df) (colunasDesejadas : List String) : Df :=
  ⟨(colunasDesejadas.filter (fun c => c ∈ df.colNames)).flatMap
    (fun name => df.cols.filter (fun c => c.name = name))⟩

/-- One `pd.read_csv` keyword configuration of `carregar_csv_robusto`. -/
structure Config where
  encoding : String
  sep : Option String
  engine : Option String
  lowMemory : Bool
deriving DecidableEq, Repr

/-- The fixed `configs` list of `carregar_csv_robusto`, in order. -/
def configsPadrao : List Config :=
  [⟨"latin1", some ";", none, false⟩,
   ⟨"latin1", some ",", none, false⟩,
   ⟨"utf-8", some ";", none, false⟩,
   ⟨"latin1", none, some "python", false⟩]

/-- An input CSV file, modelled by whether it exists and by the parse
result each `pd.read_csv` configuration would produce on it. -/
structure ArquivoCSV where
  existe : Bool
  parse : Config → Option Df

/-- `carregar_csv_robusto`: `None` for a missing file; otherwise the first
configuration (of the first `tentativas`) that parses, column-filtered;
`None` when every configuration fails (the trailing diagnostic print does
not change the result). -/
def carregarCsvRobusto (a : ArquivoCSV) (tentativas : Nat) : Option Df :=
  if !a.existe then none
  else
    match (configsPadrao.take tentativas).findSome? a.parse with
    | some df => some (filtrarColunasExistentes df colunasParaManter)
    | none => none

/-- The ordered union of column names used by `pd.concat`. -/
def concatColNames (dfs : List Df) : List String :=
  uniqueKeepFirst (dfs.flatMap Df.colNames)

/-- `pd.concat(dfs, ignore_index=True)`: columns are the ordered union of
the inputs' columns; each input contributes its cells to a column it has
and one null per row to a column it lacks.  The dtype recorded is that of
the first input carrying the column. -/
def concatDfs (dfs : List Df) : Df :=
  ⟨(concatColNames dfs).map (fun name =>
    { name := name
      dtype := ((dfs.findSome? (fun d => d.findCol name)).map Col.dtype).getD Dtype.object
      cells := dfs.flatMap (fun d =>
        match d.findCol name with
        | some c => c.cells
        | none => List.replicate d.nRows Cell.null) })⟩

/-- The unification pipeline of `unificacao.py`: load each file with
`carregar_csv_robusto` (4 attempts), keep the successfully loaded frames,
and concatenate them. -/
def unificar (files : List ArquivoCSV) : Df :=
  concatDfs (files.filterMap (fun a => carregarCsvRobusto a 4))

/-!  `formatar_dicionario.py`, ESTRUTURADO output (the default).
Lines are character lists; the regular expressions of the script are
embedded as executable matchers with the engine's lazy/greedy and
backtracking behaviour. -/

/-- ASCII digit, the `[0-9]` and `\d` classes. -/
def isDigitChar (c : Char) : Bool := '0' ≤ c && c ≤ '9'

/-- The character class of `padrao_secao`:
`[A-ZÇÀÁÂÃÉÊÍÓÔÕÚÜ\s\-0-9]`. -/
def secaoChar (c : Char) : Bool :=
  ('A' ≤ c && c ≤ 'Z') || c = 'Ç' || c = 'À' || c = 'Á' || c = 'Â' || c = 'Ã' ||
    c = 'É' || c = 'Ê' || c = 'Í' || c = 'Ó' || c = 'Ô' || c = 'Õ' || c = 'Ú' ||
    c = 'Ü' || isPySpace c || c = '-' || isDigitChar c

/-- `padrao_secao`: the whole line consists of section characters
(at least one). -/
def matchSecao (l : List Char) : Bool :=
  !l.isEmpty && l.all secaoChar

/-- `re.match(r'^[0-9]+[\-\.]', ...)`: the lookahead used inside the
reattachment loop for "next line looks like a field". -/
def weakCampoStart (l : List Char) : Bool :=
  let ds := l.takeWhile isDigitChar
  !ds.isEmpty &&
    (match l.drop ds.length with
     | c :: _ => c = '-' || c = '.'
     | [] => false)

/-- Literal-prefix matcher: consume `lit` from the front. -/
def matchLit (lit s : List Char) : Option (List Char × List Char) :=
  if lit.isPrefixOf s then some (lit, s.drop lit.length) else none

/-- `\(\d+\)`: an opening parenthesis, some digits, a closing one. -/
def parenDigits (s : List Char) : Option (List Char × List Char) :=
  match s with
  | '(' :: r =>
    let ds := r.takeWhile isDigitChar
    if ds.isEmpty then none
    else
      match r.drop ds.length with
      | ')' :: r2 => some ('(' :: (ds ++ [')']), r2)
      | _ => none
  | _ => none

/-- The alternative `Varchar2?\(\d+\)` (greedy `2?`, with backtracking). -/
def altVarcharParen (s : List Char) : Option (List Char × List Char) :=
  (matchLit "Varchar".data s).bind (fun t1 =>
    match t1.2 with
    | '2' :: r2 =>
      match parenDigits r2 with
      | some p => some (t1.1 ++ '2' :: p.1, p.2)
      | none => (parenDigits t1.2).map (fun p => (t1.1 ++ p.1, p.2))
    | _ => (parenDigits t1.2).map (fun p => (t1.1 ++ p.1, p.2)))

/-- The alternative `Number\(\d+\)`. -/
def altNumberParen (s : List Char) : Option (List Char × List Char) :=
  (matchLit "Number".data s).bind (fun t1 =>
    (parenDigits t1.2).map (fun p => (t1.1 ++ p.1, p.2)))

/-- The alternative `Varchar2?` without parentheses (greedy `2?`). -/
def altVarcharBare (s : List Char) : Option (List Char × List Char) :=
  (matchLit "Varchar".data s).map (fun t1 =>
    match t1.2 with
    | '2' :: r2 => (t1.1 ++ ['2'], r2)
    | _ => t1)

/-- The type alternation of `padrao_campo`, in the pattern's order. -/
def altsCampo : List (List Char → Option (List Char × List Char)) :=
  [altVarcharParen, matchLit "Date".data, altNumberParen,
   matchLit "Número".data, altVarcharBare, matchLit "Tabela".data]

/-- The single alternative of `padrao_campo_numerico`. -/
def altsNumero : List (List Char → Option (List Char × List Char)) :=
  [matchLit "Número".data]

/-- The single alternative of `padrao_campo_tabela`. -/
def altsTabela : List (List Char → Option (List Char × List Char)) :=
  [matchLit "Tabela".data]

/-- `\s+` (greedy, backtracking down to one character) followed by the
alternation: try the maximal whitespace run first. -/
def wsTypeGo (alts : List (List Char → Option (List Char × List Char)))
    (s : List Char) : Nat → Option (List Char × List Char)
  | 0 => none
  | k + 1 =>
    match alts.findSome? (fun f => f (s.drop (k + 1))) with
    | some r => some r
    | none => wsTypeGo alts s k

/-- Match `\s+(alternation)` at the front of `s`. -/
def matchWsType (alts : List (List Char → Option (List Char × List Char)))
    (s : List Char) : Option (List Char × List Char) :=
  wsTypeGo alts s (s.takeWhile isPySpace).length

/-- The lazy scan of `.*?`: find the smallest split point `t` (from `t0`
up) at which `\s+(alternation)` matches; returns
(group 1, group 2, text after the match). -/
def campoScanGo (alts : List (List Char → Option (List Char × List Char)))
    (l : List Char) (t : Nat) : Nat → Option (List Char × List Char × List Char)
  | 0 => none
  | fuel + 1 =>
    match matchWsType alts (l.drop t) with
    | some r => some (l.take t, r.1, r.2)
    | none => campoScanGo alts l (t + 1) fuel

/-- `^([0-9]+[\-\.].*?)\s+(alternation)`: leading digits, a dash or dot,
then the lazy scan. -/
def matchCampoGen (alts : List (List Char → Option (List Char × List Char)))
    (l : List Char) : Option (List Char × List Char × List Char) :=
  let ds := l.takeWhile isDigitChar
  if ds.isEmpty then none
  else
    match l.drop ds.length with
    | c :: _ =>
      if c = '-' || c = '.' then
        campoScanGo alts l (ds.length + 1) (l.length + 1 - ds.length)
      else none
    | [] => none

/-- `padrao_campo.match` or, failing it, `padrao_campo_numerico.match` or
`padrao_campo_tabela.match`, as chained in the script. -/
def campoAny (l : List Char) : Option (List Char × List Char × List Char) :=
  (matchCampoGen altsCampo l).orElse (fun _ =>
    (matchCampoGen altsNumero l).orElse (fun _ => matchCampoGen altsTabela l))

/-- The metadata keywords split out of a field description, in the
pattern's order. -/
def kwMetadados : List (List Char) :=
  ["Descrição:".data, "Características DBF:".data, "Campo Obrigatório".data,
   "Campo Essencial".data, "Campo Interno".data, "Campo Opcional".data]

/-- `re.split` with one capturing group: alternating text and separator
segments, leftmost match first (fuel bounds the scan). -/
def splitKwGo (cur s : List Char) : Nat → List (List Char)
  | 0 => [cur ++ s]
  | fuel + 1 =>
    match s with
    | [] => [cur]
    | c :: rest =>
      match kwMetadados.findSome?
          (fun k => if k.isPrefixOf (c :: rest) then some k else none) with
      | some k => cur :: k :: splitKwGo [] ((c :: rest).drop k.length) fuel
      | none => splitKwGo (cur ++ [c]) rest fuel

/-- `re.split(r'(Descrição:|...)', desc)`. -/
def splitKeywords (desc : List Char) : List (List Char) :=
  splitKwGo [] desc (desc.length + 1)

/-- Pair each even-index segment with the separator before it
(the `range(0, len(partes), 2)` loop of the script). -/
def partesPairs : List (List Char) → List (List Char × List Char)
  | [] => []
  | t :: rest => ([], t) :: partesPairsGo rest
where partesPairsGo : List (List Char) → List (List Char × List Char)
  | [] => []
  | [s] => [(s, [])]
  | s :: t :: rest => (s, t) :: partesPairsGo rest

/-- The ESTRUTURADO field block: name, an indented `Tipo:` line, and the
description parts, each metadata keyword on its own indented line. -/
def buildBlock (nome tipo desc : List Char) : List Char :=
  let base := nome ++ "\n    Tipo: ".data ++ tipo
  if desc.isEmpty then base
  else
    (partesPairs (splitKeywords desc)).foldl
      (fun acc pt =>
        let txt := stripChars pt.2
        if !pt.1.isEmpty then acc ++ "\n    ".data ++ pt.1 ++ ' ' :: txt
        else if !txt.isEmpty then acc ++ "\n    ".data ++ txt
        else acc)
      base

/-- The description-reattachment loop: consume following lines into the
field's description until another field, a section, or an empty line
followed by a field-like line; returns the description and the suffix at
which the outer loop resumes. -/
def innerLoop : List (List Char) → List Char → List Char × List (List Char)
  | [], desc => (desc, [])
  | lj :: rest, desc =>
    let s := stripChars lj
    if (campoAny s).isSome then (desc, lj :: rest)
    else if matchSecao s then (desc, lj :: rest)
    else if s.isEmpty &&
        (match rest with
         | nxt :: _ => weakCampoStart (stripChars nxt)
         | [] => false) then (desc, lj :: rest)
    else innerLoop rest (if s.isEmpty then desc else desc ++ ' ' :: s)

/-- The description accumulated by the reattachment loop: each non-empty
stripped continuation line is appended after a single space. -/
def mergeDesc (desc : List Char) (conts : List (List Char)) : List Char :=
  conts.foldl
    (fun d l => if (stripChars l).isEmpty then d else d ++ ' ' :: stripChars l)
    desc

/-- The outer-loop resumption point never lies before the current one. -/
theorem innerLoop_snd_length_le (l : List (List Char)) (d : List Char) :
    (innerLoop l d).2.length ≤ l.length := by
  induction l generalizing d with
  | nil => simp [innerLoop]
  | cons lj rest ih =>
    simp only [innerLoop]
    split
    · simp
    · split
      · simp
      · split
        · simp
        · exact le_trans (ih _) (Nat.le_succ _)

/-- The main line-processing loop of `formatar_dicionario` for the
ESTRUTURADO format, on the suffix of unprocessed lines, with the lines
already emitted as accumulator. -/
def formatarLoop (rem : List (List Char)) (acc : List (List Char)) :
    List (List Char) :=
  match rem with
  | [] => acc
  | l :: rest =>
    let la := rstripChars l
    if (stripChars la).isEmpty then formatarLoop rest (acc ++ [[]])
    else if matchSecao (stripChars la) then
      let acc1 := if acc ≠ [] ∧ acc.getLast? ≠ some [] then acc ++ [[]] else acc
      formatarLoop rest (acc1 ++ [la, []])
    else
      match campoAny la with
      | some g =>
        let res := innerLoop rest (stripChars g.2.2)
        formatarLoop res.2
          (acc ++ [buildBlock (stripChars g.1) (stripChars g.2.1) res.1])
      | none => formatarLoop rest (acc ++ [la])
termination_by rem.length
decreasing_by
  · simp
  · simp
  · exact Nat.lt_succ_of_le (innerLoop_snd_length_le _ _)
  · simp

/-- `formatar_dicionario` at line level, ESTRUTURADO format: the list of
processed lines (each field block is one element, holding its own
newlines). -/
def formatarLinhas (linhas : List (List Char)) : List (List Char) :=
  formatarLoop linhas []

/-!  ## Concrete example frames used by witnesses and counterexamples -/

/-- A frame with one `CS_SEXO` column: a mapped code, an unmapped code
and a null. -/
def exDfSexo : Df :=
  ⟨[⟨"CS_SEXO", Dtype.object, [Cell.cstr "1", Cell.cstr "7", Cell.null]⟩]⟩

/-- A frame with one `PCR_SARS2` checkbox column holding codes 1 and 2. -/
def exDfPcr : Df :=
  ⟨[⟨"PCR_SARS2", Dtype.numeric, [Cell.cstr "1", Cell.cstr "2"]⟩]⟩

/-- A frame whose two rows differ only in case. -/
def exDfCase : Df :=
  ⟨[⟨"X", Dtype.object, [Cell.cstr "a", Cell.cstr "A"]⟩]⟩

/-- A one-row frame holding a lower-case value. -/
def exDfCaseB : Df :=
  ⟨[⟨"X", Dtype.object, [Cell.cstr "b"]⟩]⟩

/-- A frame with a `TEMPO_UTI` column. -/
def exDfUti : Df :=
  ⟨[⟨"TEMPO_UTI", Dtype.numeric, [Cell.cnum 10, Cell.cnum 200, Cell.null,
      Cell.cnum 160]⟩,
    ⟨"EVOLUCAO", Dtype.object, [Cell.cstr "Cura", Cell.cstr "Cura",
      Cell.cstr "Óbito", Cell.null]⟩]⟩

/-- A tiny well-formed frame for the loader examples. -/
def exDfCsv : Df :=
  ⟨[⟨"CS_SEXO", Dtype.object, [Cell.cstr "1", Cell.cstr "2"]⟩,
    ⟨"IGNORADA", Dtype.object, [Cell.cstr "x", Cell.cstr "y"]⟩]⟩

/-- A file that parses under the first configuration only. -/
def exArquivo : ArquivoCSV :=
  ⟨true, fun cfg => if cfg = ⟨"latin1", some ";", none, false⟩ then some exDfCsv
                    else none⟩

/-- A file that exists but parses under no configuration. -/
def exArquivoRuim : ArquivoCSV := ⟨true, fun _ => none⟩

/-- A missing file. -/
def exArquivoAusente : ArquivoCSV := ⟨false, fun _ => some exDfCsv⟩

/-!  ## Lemmas about the embedded operations -/

/-- Mapping a function that fixes every element is the identity. -/
theorem map_id_of_fixes {α : Type} (f : α → α) :
    ∀ (l : List α), (∀ x ∈ l, f x = x) → l.map f = l
  | [], _ => rfl
  | x :: rest, h => by
    simp only [List.map_cons, h x (List.mem_cons_self x rest),
      map_id_of_fixes f rest (fun y hy => h y (List.mem_cons_of_mem x hy))]

theorem mem_uniqueKeepFirstGo {a : String} :
    ∀ (l seen : List String),
      a ∈ uniqueKeepFirst.uniqueKeepFirstGo l seen ↔ a ∈ l ∧ a ∉ seen
  | [], seen => by simp [uniqueKeepFirst.uniqueKeepFirstGo]
  | x :: rest, seen => by
    by_cases hx : x ∈ seen
    · rw [uniqueKeepFirst.uniqueKeepFirstGo, if_pos hx, mem_uniqueKeepFirstGo rest seen]
      constructor
      · rintro ⟨h1, h2⟩
        exact ⟨List.mem_cons_of_mem x h1, h2⟩
      · rintro ⟨h1, h2⟩
        rcases List.mem_cons.mp h1 with rfl | h1
        · exact absurd hx h2
        · exact ⟨h1, h2⟩
    · rw [uniqueKeepFirst.uniqueKeepFirstGo, if_neg hx, List.mem_cons,
        mem_uniqueKeepFirstGo rest (x :: seen)]
      constructor
      · rintro (rfl | ⟨h1, h2⟩)
        · exact ⟨List.mem_cons_self a rest, hx⟩
        · exact ⟨List.mem_cons_of_mem x h1,
            fun hc => h2 (List.mem_cons_of_mem x hc)⟩
      · rintro ⟨h1, h2⟩
        rcases List.mem_cons.mp h1 with rfl | h1
        · exact Or.inl rfl
        · by_cases hax : a = x
          · exact Or.inl hax
          · refine Or.inr ⟨h1, fun hc => ?_⟩
            rcases List.mem_cons.mp hc with h | h
            · exact hax h
            · exact h2 h

/-- `uniqueKeepFirst` has exactly the members of its input. -/
theorem mem_uniqueKeepFirst {a : String} {l : List String} :
    a ∈ uniqueKeepFirst l ↔ a ∈ l := by
  rw [uniqueKeepFirst, mem_uniqueKeepFirstGo]
  simp

/-!  Facts about the concrete `categorias` table, established by
computation. -/

/-- No label of a category is matched by any code of the same category. -/
theorem tabela_labels_nao_casam : ∀ pr ∈ categorias, ∀ q ∈ pr.2, ∀ r ∈ pr.2,
    cellMatches (Cell.cstr q.2) r.1 = false := by decide

/-- A cell holding a code of a category, exactly, is matched by that code
and by no other code of the category. -/
theorem tabela_codigo_casa : ∀ pr ∈ categorias, ∀ q ∈ pr.2, ∀ r ∈ pr.2,
    cellMatches (Cell.cstr q.1) r.1 = decide (r.1 = q.1) := by decide

/-- The codes of each category are pairwise distinct. -/
theorem tabela_codigos_nodup : ∀ pr ∈ categorias, (pr.2.map Prod.fst).Nodup := by
  decide

/-- No normalised code is itself mapped label text. -/
theorem tabela_codigo_nao_texto : ∀ pr ∈ categorias, ∀ q ∈ pr.2,
    pyUpper (pyStrip q.1) ∉ todosValoresTexto := by decide

/-- No stripped code reads `"nan"`, so a null cell matches no code. -/
theorem tabela_codigo_ne_nan : ∀ pr ∈ categorias, ∀ q ∈ pr.2,
    pyStrip q.1 ≠ "nan" := by decide

/-- `"SIM"` and `"NÃO"` are mapped label text. -/
theorem sim_nao_mem_todos : "SIM" ∈ todosValoresTexto ∧ "NÃO" ∈ todosValoresTexto := by
  decide

/-- Every label of a checkbox column's category upper-cases to `"SIM"` or
`"NÃO"`. -/
theorem tabela_checkbox_labels : ∀ name ∈ camposCheckbox,
    ∀ q ∈ (categorias.lookup name).getD [],
      pyUpper q.2 = "SIM" ∨ pyUpper q.2 = "NÃO" := by decide

/-- A successful lookup names an entry of the table. -/
theorem lookup_mem_categorias {k : String} {m : Mapa}
    (h : categorias.lookup k = some m) : (k, m) ∈ categorias := by
  obtain ⟨l1, l2, heq, -⟩ := List.lookup_eq_some_iff.mp h
  rw [heq]
  exact List.mem_append_right l1 (List.mem_cons_self _ _)

/-!  The category loop in pointwise normal form. -/

/-- The pointwise effect of one code of the loop. -/
def applyCodigo (codigo descricao : String) (c : Cell) : Cell :=
  if cellMatches c codigo then Cell.cstr descricao else c

/-- The pointwise effect of a whole category. -/
def applyMapa (mapa : Mapa) (c : Cell) : Cell :=
  mapa.foldl (fun x p => applyCodigo p.1 p.2 x) c

theorem mapCodigo_eq_map (cells : List Cell) (codigo descricao : String) :
    mapCodigo cells codigo descricao = cells.map (applyCodigo codigo descricao) := by
  unfold mapCodigo
  split
  · rfl
  · next hany =>
    rw [map_id_of_fixes]
    intro x hx
    unfold applyCodigo
    rw [if_neg]
    intro hm
    exact hany (List.any_eq_true.mpr ⟨x, hx, hm⟩)

theorem applyMapa_cons (p : String × String) (mapa : Mapa) (c : Cell) :
    applyMapa (p :: mapa) c = applyMapa mapa (applyCodigo p.1 p.2 c) := rfl

theorem foldMapa_eq_map : ∀ (mapa : Mapa) (cells : List Cell),
    foldMapa mapa cells = cells.map (applyMapa mapa)
  | [], cells => by
    rw [foldMapa, List.foldl_nil, map_id_of_fixes (applyMapa []) cells fun x _ => rfl]
  | p :: mapa, cells => by
    have h1 : foldMapa (p :: mapa) cells = foldMapa mapa (mapCodigo cells p.1 p.2) := by
      rw [foldMapa, foldMapa, List.foldl_cons]
    rw [h1, foldMapa_eq_map mapa, mapCodigo_eq_map, List.map_map]
    rfl

/-- A cell matching no code of the category is left unchanged. -/
theorem applyMapa_of_forall_not : ∀ (mapa : Mapa) (c : Cell),
    (∀ p ∈ mapa, cellMatches c p.1 = false) → applyMapa mapa c = c
  | [], _, _ => rfl
  | p :: mapa, c, h => by
    rw [applyMapa_cons, applyCodigo, if_neg]
    · exact applyMapa_of_forall_not mapa c
        (fun q hq => h q (List.mem_cons_of_mem p hq))
    · rw [h p (List.mem_cons_self p mapa)]
      exact Bool.false_ne_true

/-- After a category is applied, a cell is a label of the category or an
unchanged cell matching none of its codes. -/
theorem applyMapa_cases : ∀ (mapa : Mapa) (c : Cell),
    (∃ p ∈ mapa, applyMapa mapa c = Cell.cstr p.2) ∨
      (applyMapa mapa c = c ∧ ∀ p ∈ mapa, cellMatches c p.1 = false)
  | [], c => Or.inr ⟨rfl, by simp⟩
  | p :: mapa, c => by
    rw [applyMapa_cons]
    by_cases hm : cellMatches c p.1 = true
    · rw [applyCodigo, if_pos hm]
      rcases applyMapa_cases mapa (Cell.cstr p.2) with ⟨q, hq, he⟩ | ⟨he, -⟩
      · exact Or.inl ⟨q, List.mem_cons_of_mem p hq, he⟩
      · exact Or.inl ⟨p, List.mem_cons_self p mapa, he⟩
    · rw [applyCodigo, if_neg hm]
      rcases applyMapa_cases mapa c with ⟨q, hq, he⟩ | ⟨he, hall⟩
      · exact Or.inl ⟨q, List.mem_cons_of_mem p hq, he⟩
      · refine Or.inr ⟨he, fun q hq => ?_⟩
        rcases List.mem_cons.mp hq with rfl | hq
        · exact Bool.eq_false_iff.mpr hm
        · exact hall q hq

/-- A cell holding a code, exactly, is rewritten to that code's label. -/
theorem applyMapa_code : ∀ (mapa : Mapa) (codigo descricao : String),
    (codigo, descricao) ∈ mapa →
    (mapa.map Prod.fst).Nodup →
    (∀ r ∈ mapa, cellMatches (Cell.cstr codigo) r.1 = decide (r.1 = codigo)) →
    (∀ q ∈ mapa, ∀ r ∈ mapa, cellMatches (Cell.cstr q.2) r.1 = false) →
    applyMapa mapa (Cell.cstr codigo) = Cell.cstr descricao := by
  intro mapa
  induction mapa with
  | nil => intro _ _ h; simp at h
  | cons p mapa ih =>
    intro codigo descricao hmem hnodup hcode hlabels
    rw [List.map_cons, List.nodup_cons] at hnodup
    rw [applyMapa_cons]
    by_cases hp : p.1 = codigo
    · have hm : cellMatches (Cell.cstr codigo) p.1 = true := by
        rw [hcode p (List.mem_cons_self p mapa)]
        exact decide_eq_true hp
      rw [applyCodigo, if_pos hm]
      have hdesc : p.2 = descricao := by
        rcases List.mem_cons.mp hmem with heq | hmem2
        · rw [← heq]
        · exfalso
          have : codigo ∈ mapa.map Prod.fst :=
            List.mem_map.mpr ⟨(codigo, descricao), hmem2, rfl⟩
          rw [← hp] at this
          exact hnodup.1 this
      rw [hdesc]
      exact applyMapa_of_forall_not mapa (Cell.cstr descricao)
        (fun r hr => by
          have := hlabels p (List.mem_cons_self p mapa) r (List.mem_cons_of_mem p hr)
          rwa [hdesc] at this)
    · have hm : cellMatches (Cell.cstr codigo) p.1 = false := by
        rw [hcode p (List.mem_cons_self p mapa)]
        exact decide_eq_false hp
      rw [applyCodigo, if_neg (by rw [hm]; exact Bool.false_ne_true)]
      have hmem2 : (codigo, descricao) ∈ mapa := by
        rcases List.mem_cons.mp hmem with heq | hmem2
        · exact absurd (congrArg Prod.fst heq.symm) hp
        · exact hmem2
      exact ih codigo descricao hmem2 hnodup.2
        (fun r hr => hcode r (List.mem_cons_of_mem p hr))
        (fun q hq r hr =>
          hlabels q (List.mem_cons_of_mem p hq) r (List.mem_cons_of_mem p hr))

/-- A null cell prints as `"nan"`, so it matches a code only if the
stripped code is the string `"nan"`. -/
theorem cellMatches_null (codigo : String) :
    cellMatches Cell.null codigo = decide (("nan" : String) = pyStrip codigo) := by
  have h1 : pyStrip (pyStr Cell.null) = "nan" := rfl
  simp [cellMatches, h1]

/-- A category leaves null cells null (no code strips to `"nan"`). -/
theorem applyMapa_null (mapa : Mapa) (h : ∀ p ∈ mapa, pyStrip p.1 ≠ "nan") :
    applyMapa mapa Cell.null = Cell.null := by
  refine applyMapa_of_forall_not mapa Cell.null (fun p hp => ?_)
  rw [cellMatches_null]
  exact decide_eq_false (fun he => h p hp he.symm)

theorem regularProcess_of_skip {cells : List Cell} (mapa : Mapa)
    (h : skipCategoria cells) : regularProcess mapa cells = cells := by
  rw [regularProcess, if_pos h]

theorem regularProcess_of_not_skip {cells : List Cell} (mapa : Mapa)
    (h : ¬skipCategoria cells) : regularProcess mapa cells = foldMapa mapa cells := by
  rw [regularProcess, if_neg h]

/-- The normalised value of a non-null cell is among the column's unique
values. -/
theorem normValue_mem_valoresUnicos {c : Cell} {cells : List Cell}
    (hc : c ∈ cells) (hn : c ≠ Cell.null) : normValue c ∈ valoresUnicos cells := by
  rw [valoresUnicos, mem_uniqueKeepFirst]
  exact List.mem_filterMap.mpr ⟨c, hc, by rw [if_neg hn]⟩

/-- A column containing a value outside the mapped label text is not
skipped by the category loop. -/
theorem not_skip_of_original {cells : List Cell} {c : Cell}
    (hc : c ∈ cells) (hn : c ≠ Cell.null)
    (ht : normValue c ∉ todosValoresTexto) : ¬skipCategoria cells := by
  intro hs
  have hmem : normValue c ∈ (valoresUnicos cells).filter
      (fun v => v ∉ todosValoresTexto) :=
    List.mem_filter.mpr ⟨normValue_mem_valoresUnicos hc hn, by simpa using ht⟩
  rw [hs.2] at hmem
  exact List.not_mem_nil _ hmem

/-- A column whose cells are all null, `"Sim"` or `"Não"`, with at least
one non-null cell, is skipped by the category loop. -/
theorem skip_of_sim_nao {cells : List Cell}
    (h1 : Cell.cstr "Sim" ∈ cells ∨ Cell.cstr "Não" ∈ cells)
    (h2 : ∀ c ∈ cells, c = Cell.null ∨ c = Cell.cstr "Sim" ∨ c = Cell.cstr "Não") :
    skipCategoria cells := by
  have hsim : normValue (Cell.cstr "Sim") = "SIM" := rfl
  have hnao : normValue (Cell.cstr "Não") = "NÃO" := rfl
  constructor
  · rcases h1 with h1 | h1
    · have hmem : "SIM" ∈ (valoresUnicos cells).filter
          (fun v => v ∈ todosValoresTexto) := by
        refine List.mem_filter.mpr ⟨?_, by simpa using sim_nao_mem_todos.1⟩
        rw [← hsim]
        exact normValue_mem_valoresUnicos h1 (by simp)
      intro he
      rw [he] at hmem
      exact List.not_mem_nil _ hmem
    · have hmem : "NÃO" ∈ (valoresUnicos cells).filter
          (fun v => v ∈ todosValoresTexto) := by
        refine List.mem_filter.mpr ⟨?_, by simpa using sim_nao_mem_todos.2⟩
        rw [← hnao]
        exact normValue_mem_valoresUnicos h1 (by simp)
      intro he
      rw [he] at hmem
      exact List.not_mem_nil _ hmem
  · rw [List.filter_eq_nil_iff]
    intro v hv
    rw [valoresUnicos, mem_uniqueKeepFirst, List.mem_filterMap] at hv
    obtain ⟨c, hc, hvc⟩ := hv
    rcases h2 c hc with rfl | rfl | rfl
    · simp at hvc
    · rw [if_neg (by simp)] at hvc
      obtain rfl := Option.some_injective _ hvc
      simpa using sim_nao_mem_todos.1
    · rw [if_neg (by simp)] at hvc
      obtain rfl := Option.some_injective _ hvc
      simpa using sim_nao_mem_todos.2

/-!  Checkbox-loop lemmas. -/

theorem checkboxProcess_of_ja {cells : List Cell} (h : cbJaMapeado cells = true) :
    checkboxProcess cells = cells := by
  rw [checkboxProcess, if_pos h]

theorem checkboxProcess_of_none {cells : List Cell}
    (h : cells.any maskSim = false) : checkboxProcess cells = cells := by
  rw [checkboxProcess]
  split
  · rfl
  · rw [if_neg (by rw [h]; exact Bool.false_ne_true)]

theorem checkboxProcess_applied {cells : List Cell}
    (h1 : ¬cbJaMapeado cells = true) (h2 : cells.any maskSim = true) :
    checkboxProcess cells = cells.map cbMapCell := by
  rw [checkboxProcess, if_neg h1, if_pos h2]

/-- A column containing the literal `"Sim"` is seen as already mapped by
the checkbox loop. -/
theorem cbJa_of_mem_sim {cells : List Cell} (h : Cell.cstr "Sim" ∈ cells) :
    cbJaMapeado cells = true := by
  have hmem : "SIM" ∈ cbValores cells :=
    List.mem_filterMap.mpr ⟨Cell.cstr "Sim", h, by rw [if_neg (by simp)]; rfl⟩
  rw [cbJaMapeado, Bool.or_eq_true]
  exact Or.inl (List.elem_eq_true_of_mem hmem)

/-- A column containing the literal `"Não"` is seen as already mapped by
the checkbox loop. -/
theorem cbJa_of_mem_nao {cells : List Cell} (h : Cell.cstr "Não" ∈ cells) :
    cbJaMapeado cells = true := by
  have hmem : "NÃO" ∈ cbValores cells :=
    List.mem_filterMap.mpr ⟨Cell.cstr "Não", h, by rw [if_neg (by simp)]; rfl⟩
  rw [cbJaMapeado, Bool.or_eq_true]
  exact Or.inr (List.elem_eq_true_of_mem hmem)

theorem cbMapCell_cases (c : Cell) :
    cbMapCell c = Cell.null ∨ cbMapCell c = Cell.cstr "Sim" ∨
      cbMapCell c = Cell.cstr "Não" := by
  rw [cbMapCell]
  split
  · exact Or.inr (Or.inl rfl)
  · split
    · exact Or.inr (Or.inr rfl)
    · next h =>
      simp only [ne_eq, Decidable.not_not] at h
      exact Or.inl (by rw [h])

theorem cbMapCell_null : cbMapCell Cell.null = Cell.null := rfl

/-- The checkbox loop is idempotent on any column. -/
theorem checkboxProcess_idem (cells : List Cell) :
    checkboxProcess (checkboxProcess cells) = checkboxProcess cells := by
  by_cases hja : cbJaMapeado cells = true
  · rw [checkboxProcess_of_ja hja, checkboxProcess_of_ja hja]
  · by_cases hany : cells.any maskSim = true
    · rw [checkboxProcess_applied hja hany]
      obtain ⟨c, hc, hm⟩ := List.any_eq_true.mp hany
      have hsim : Cell.cstr "Sim" ∈ cells.map cbMapCell := by
        refine List.mem_map.mpr ⟨c, hc, ?_⟩
        rw [cbMapCell, if_pos hm]
      exact checkboxProcess_of_ja (cbJa_of_mem_sim hsim)
    · rw [checkboxProcess_of_none (Bool.eq_false_iff.mpr hany),
        checkboxProcess_of_none (Bool.eq_false_iff.mpr hany)]

/-!  Idempotence of the per-column stages. -/

/-- With labels matching no code, one category application is a fixed
point of itself on every cell. -/
theorem applyMapa_idem (mapa : Mapa)
    (hlabels : ∀ q ∈ mapa, ∀ r ∈ mapa, cellMatches (Cell.cstr q.2) r.1 = false)
    (c : Cell) : applyMapa mapa (applyMapa mapa c) = applyMapa mapa c := by
  rcases applyMapa_cases mapa c with ⟨p, hp, he⟩ | ⟨he, -⟩
  · rw [he]
    exact applyMapa_of_forall_not mapa (Cell.cstr p.2) (fun r hr => hlabels p hp r hr)
  · rw [he, he]

/-- The regular category loop is idempotent on a column. -/
theorem regularProcess_idem (mapa : Mapa)
    (hlabels : ∀ q ∈ mapa, ∀ r ∈ mapa, cellMatches (Cell.cstr q.2) r.1 = false)
    (cells : List Cell) :
    regularProcess mapa (regularProcess mapa cells) = regularProcess mapa cells := by
  by_cases hs : skipCategoria cells
  · rw [regularProcess_of_skip mapa hs, regularProcess_of_skip mapa hs]
  · rw [regularProcess_of_not_skip mapa hs]
    by_cases hs2 : skipCategoria (foldMapa mapa cells)
    · exact regularProcess_of_skip mapa hs2
    · rw [regularProcess_of_not_skip mapa hs2, foldMapa_eq_map, foldMapa_eq_map,
        List.map_map]
      exact List.map_congr_left (fun c _ => applyMapa_idem mapa hlabels c)

/-- After the checkbox rewrite was applied, the category loop skips the
column. -/
theorem skip_of_checkbox_applied {cells : List Cell}
    (hany : cells.any maskSim = true) :
    skipCategoria (cells.map cbMapCell) := by
  obtain ⟨c, hc, hm⟩ := List.any_eq_true.mp hany
  refine skip_of_sim_nao (Or.inl ?_) ?_
  · exact List.mem_map.mpr ⟨c, hc, by rw [cbMapCell, if_pos hm]⟩
  · intro y hy
    obtain ⟨x, -, rfl⟩ := List.mem_map.mp hy
    rcases cbMapCell_cases x with h | h | h
    · exact Or.inl h
    · exact Or.inr (Or.inl h)
    · exact Or.inr (Or.inr h)

/-- The category loop does not change a column the checkbox loop has
already processed. -/
theorem regular_after_checkbox (mapa : Mapa)
    (hlabels : ∀ q ∈ mapa, ∀ r ∈ mapa, cellMatches (Cell.cstr q.2) r.1 = false)
    (cells : List Cell) :
    regularProcess mapa (checkboxProcess (regularProcess mapa cells)) =
      checkboxProcess (regularProcess mapa cells) := by
  by_cases hja : cbJaMapeado (regularProcess mapa cells) = true
  · rw [checkboxProcess_of_ja hja]
    exact regularProcess_idem mapa hlabels cells
  · by_cases hany : (regularProcess mapa cells).any maskSim = true
    · rw [checkboxProcess_applied hja hany]
      exact regularProcess_of_skip mapa (skip_of_checkbox_applied hany)
    · rw [checkboxProcess_of_none (Bool.eq_false_iff.mpr hany)]
      exact regularProcess_idem mapa hlabels cells

/-!  The per-column stages at record level. -/

theorem regStage_name (c : Col) : (regStage c).name = c.name := by
  rw [regStage]
  rcases categorias.lookup c.name with _ | mapa
  · rfl
  · dsimp only
    split
    · rfl
    · rfl

theorem cbStage_name (c : Col) : (cbStage c).name = c.name := by
  rw [cbStage]
  split
  · rfl
  · rfl

theorem processCol_name (c : Col) : (processCol c).name = c.name := by
  rw [processCol, cbStage_name, regStage_name]

/-- Rebuilding a column with its own dtype and cells changes nothing. -/
theorem col_eta (c : Col) (hd : c.dtype = Dtype.object) :
    { c with dtype := Dtype.object } = c := by
  obtain ⟨n, d, cs⟩ := c
  simp only at hd
  rw [hd]

/-- The hypotheses of `regularProcess_idem`, read off the table for
whatever category a column's name looks up to. -/
theorem hlabels_of_lookup {k : String} {mapa : Mapa}
    (h : categorias.lookup k = some mapa) :
    ∀ q ∈ mapa, ∀ r ∈ mapa, cellMatches (Cell.cstr q.2) r.1 = false :=
  tabela_labels_nao_casam (k, mapa) (lookup_mem_categorias h)

theorem regStage_eq_none {c : Col} (h : categorias.lookup c.name = none) :
    regStage c = c := by
  simp only [regStage, h]

theorem regStage_eq_empty {c : Col} {mapa : Mapa}
    (h : categorias.lookup c.name = some mapa) (hm : mapa = []) :
    regStage c = c := by
  simp only [regStage, h, if_pos hm]

theorem regStage_eq_some {c : Col} {mapa : Mapa}
    (h : categorias.lookup c.name = some mapa) (hm : mapa ≠ []) :
    regStage c = ⟨c.name, Dtype.object, regularProcess mapa c.cells⟩ := by
  simp only [regStage, h, if_neg hm]

theorem cbStage_eq_pos {c : Col} (h : camposCheckbox.contains c.name = true) :
    cbStage c = ⟨c.name, Dtype.object, checkboxProcess c.cells⟩ := by
  simp only [cbStage, if_pos h]

theorem cbStage_eq_neg {c : Col} (h : ¬camposCheckbox.contains c.name = true) :
    cbStage c = c := by
  simp only [cbStage, if_neg h]

/-- The checkbox stage is idempotent on a column whose name has no
(non-empty) category; helper for `processCol_idem`. -/
theorem cbStage_idem_plain {c : Col} : cbStage (cbStage c) = cbStage c := by
  by_cases hin : camposCheckbox.contains c.name = true
  · rw [cbStage_eq_pos hin,
      cbStage_eq_pos (show camposCheckbox.contains
        (⟨c.name, Dtype.object, checkboxProcess c.cells⟩ : Col).name = true from hin)]
    show (⟨c.name, Dtype.object, checkboxProcess (checkboxProcess c.cells)⟩ : Col) = _
    rw [checkboxProcess_idem]
  · rw [cbStage_eq_neg hin, cbStage_eq_neg hin]

/-- One column is processed idempotently. -/
theorem processCol_idem (c : Col) : processCol (processCol c) = processCol c := by
  rw [processCol, processCol]
  rcases hlk : categorias.lookup c.name with _ | mapa
  · rw [regStage_eq_none hlk,
      regStage_eq_none (show categorias.lookup (cbStage c).name = none by
        rwa [cbStage_name])]
    exact cbStage_idem_plain
  · by_cases hmt : mapa = []
    · rw [regStage_eq_empty hlk hmt,
        regStage_eq_empty (show categorias.lookup (cbStage c).name = some mapa by
          rwa [cbStage_name]) hmt]
      exact cbStage_idem_plain
    · have hlabels := hlabels_of_lookup hlk
      rw [regStage_eq_some hlk hmt]
      by_cases hin : camposCheckbox.contains c.name = true
      · rw [cbStage_eq_pos (show camposCheckbox.contains
            (⟨c.name, Dtype.object, regularProcess mapa c.cells⟩ : Col).name = true
            from hin)]
        rw [regStage_eq_some (show categorias.lookup
            (⟨c.name, Dtype.object,
              checkboxProcess (regularProcess mapa c.cells)⟩ : Col).name = some mapa
            from hlk) hmt]
        show cbStage ⟨c.name, Dtype.object,
            regularProcess mapa (checkboxProcess (regularProcess mapa c.cells))⟩ = _
        rw [regular_after_checkbox mapa hlabels c.cells]
        rw [cbStage_eq_pos (show camposCheckbox.contains
            (⟨c.name, Dtype.object,
              checkboxProcess (regularProcess mapa c.cells)⟩ : Col).name = true
            from hin)]
        show (⟨c.name, Dtype.object,
            checkboxProcess (checkboxProcess (regularProcess mapa c.cells))⟩ : Col) = _
        rw [checkboxProcess_idem]
      · rw [cbStage_eq_neg (show ¬camposCheckbox.contains
            (⟨c.name, Dtype.object, regularProcess mapa c.cells⟩ : Col).name = true
            from hin)]
        rw [regStage_eq_some (show categorias.lookup
            (⟨c.name, Dtype.object, regularProcess mapa c.cells⟩ : Col).name = some mapa
            from hlk) hmt]
        rw [cbStage_eq_neg (show ¬camposCheckbox.contains
            (⟨c.name, Dtype.object,
              regularProcess mapa (regularProcess mapa c.cells)⟩ : Col).name = true
            from hin)]
        show (⟨c.name, Dtype.object,
            regularProcess mapa (regularProcess mapa c.cells)⟩ : Col) = _
        rw [regularProcess_idem mapa hlabels c.cells]

/-- A cell whose non-null string upper-cases to `"SIM"` or `"NÃO"` makes
the checkbox loop skip the column. -/
theorem cbJa_of_mem_label {cells : List Cell} {s : String}
    (h : Cell.cstr s ∈ cells) (hu : pyUpper s = "SIM" ∨ pyUpper s = "NÃO") :
    cbJaMapeado cells = true := by
  have hmem : pyUpper s ∈ cbValores cells :=
    List.mem_filterMap.mpr ⟨Cell.cstr s, h, by rw [if_neg (by simp)]; rfl⟩
  rw [cbJaMapeado, Bool.or_eq_true]
  rcases hu with hu | hu
  · rw [hu] at hmem
    exact Or.inl (List.elem_eq_true_of_mem hmem)
  · rw [hu] at hmem
    exact Or.inr (List.elem_eq_true_of_mem hmem)

/-- The effect of `aplicar_categorias_completo` on one positional column. -/
theorem aplicar_cols_getElem (df : Df) (j : Nat) :
    (aplicarCategoriasCompleto df).cols[j]? = df.cols[j]?.map processCol := by
  rw [aplicarCategoriasCompleto]
  exact List.getElem?_map processCol df.cols j

/-- Cell-level behaviour of one processed column: a cell holding a code of
the column's category, exactly, is rewritten in place to its label. -/
theorem processCol_cell_code {col : Col} {mapa : Mapa} {i : Nat}
    {codigo descricao : String}
    (hlk : categorias.lookup col.name = some mapa)
    (hcd : (codigo, descricao) ∈ mapa)
    (hcell : col.cells[i]? = some (Cell.cstr codigo)) :
    (processCol col).cells[i]? = some (Cell.cstr descricao) := by
  have hpr : (col.name, mapa) ∈ categorias := lookup_mem_categorias hlk
  have hmt : mapa ≠ [] := List.ne_nil_of_mem hcd
  have hmem : Cell.cstr codigo ∈ col.cells := List.getElem?_mem hcell
  have hnoskip : ¬skipCategoria col.cells := by
    refine not_skip_of_original hmem (by simp) ?_
    have : normValue (Cell.cstr codigo) = pyUpper (pyStrip codigo) := rfl
    rw [this]
    exact tabela_codigo_nao_texto (col.name, mapa) hpr (codigo, descricao) hcd
  have hreg : regularProcess mapa col.cells = col.cells.map (applyMapa mapa) := by
    rw [regularProcess_of_not_skip mapa hnoskip, foldMapa_eq_map]
  have happ : applyMapa mapa (Cell.cstr codigo) = Cell.cstr descricao :=
    applyMapa_code mapa codigo descricao hcd
      (tabela_codigos_nodup (col.name, mapa) hpr)
      (fun r hr => tabela_codigo_casa (col.name, mapa) hpr (codigo, descricao) hcd r hr)
      (fun q hq r hr => tabela_labels_nao_casam (col.name, mapa) hpr q hq r hr)
  have hcell1 : (regularProcess mapa col.cells)[i]? = some (Cell.cstr descricao) := by
    rw [hreg, List.getElem?_map, hcell, Option.map_some', happ]
  rw [processCol, regStage_eq_some hlk hmt]
  by_cases hin : camposCheckbox.contains
      (⟨col.name, Dtype.object, regularProcess mapa col.cells⟩ : Col).name = true
  · rw [cbStage_eq_pos hin]
    have hja : cbJaMapeado (regularProcess mapa col.cells) = true := by
      refine cbJa_of_mem_label (List.getElem?_mem hcell1) ?_
      have hmemchk : col.name ∈ camposCheckbox := List.elem_iff.mp hin
      have := tabela_checkbox_labels col.name hmemchk (codigo, descricao)
        (by rw [hlk]; exact hcd)
      exact this
    show (checkboxProcess (regularProcess mapa col.cells))[i]? = _
    rw [checkboxProcess_of_ja hja, hcell1]
  · rw [cbStage_eq_neg hin]
    exact hcell1

/-- Cell-level behaviour of one processed column: null cells stay null. -/
theorem processCol_cell_null {col : Col} {i : Nat}
    (hcell : col.cells[i]? = some Cell.null) :
    (processCol col).cells[i]? = some Cell.null := by
  rw [processCol]
  -- the regular stage keeps the null
  have hreg : (regStage col).cells[i]? = some Cell.null ∧
      (regStage col).name = col.name := by
    refine ⟨?_, regStage_name col⟩
    rcases hlk : categorias.lookup col.name with _ | mapa
    · rw [regStage_eq_none hlk]; exact hcell
    · by_cases hmt : mapa = []
      · rw [regStage_eq_empty hlk hmt]; exact hcell
      · rw [regStage_eq_some hlk hmt]
        show (regularProcess mapa col.cells)[i]? = _
        by_cases hs : skipCategoria col.cells
        · rw [regularProcess_of_skip mapa hs]; exact hcell
        · rw [regularProcess_of_not_skip mapa hs, foldMapa_eq_map,
            List.getElem?_map, hcell, Option.map_some',
            applyMapa_null mapa (fun p hp =>
              tabela_codigo_ne_nan (col.name, mapa) (lookup_mem_categorias hlk) p hp)]
  -- the checkbox stage keeps the null
  by_cases hin : camposCheckbox.contains (regStage col).name = true
  · rw [cbStage_eq_pos hin]
    show (checkboxProcess (regStage col).cells)[i]? = _
    by_cases hja : cbJaMapeado (regStage col).cells = true
    · rw [checkboxProcess_of_ja hja]; exact hreg.1
    · by_cases hany : (regStage col).cells.any maskSim = true
      · rw [checkboxProcess_applied hja hany, List.getElem?_map, hreg.1,
          Option.map_some', cbMapCell_null]
      · rw [checkboxProcess_of_none (Bool.eq_false_iff.mpr hany)]; exact hreg.1
  · rw [cbStage_eq_neg hin]; exact hreg.1

/-- The checkbox rewrite never nullifies a non-null cell. -/
theorem cbMapCell_ne_null {c : Cell} (hc : c ≠ Cell.null) :
    cbMapCell c ≠ Cell.null := by
  rw [cbMapCell]
  split
  · simp
  · simp

/-- Cell-level behaviour of one processed column: a non-null cell is
never rewritten to null, whatever its value. -/
theorem processCol_cell_nonnull {col : Col} {i : Nat} {x : Cell}
    (hcell : col.cells[i]? = some x) (hx : x ≠ Cell.null) :
    ∃ y, (processCol col).cells[i]? = some y ∧ y ≠ Cell.null := by
  rw [processCol]
  -- the regular stage only writes label strings
  have hreg : ∃ z, (regStage col).cells[i]? = some z ∧ z ≠ Cell.null := by
    rcases hlk : categorias.lookup col.name with _ | mapa
    · rw [regStage_eq_none hlk]; exact ⟨x, hcell, hx⟩
    · by_cases hmt : mapa = []
      · rw [regStage_eq_empty hlk hmt]; exact ⟨x, hcell, hx⟩
      · rw [regStage_eq_some hlk hmt]
        show ∃ z, (regularProcess mapa col.cells)[i]? = some z ∧ z ≠ Cell.null
        by_cases hs : skipCategoria col.cells
        · rw [regularProcess_of_skip mapa hs]; exact ⟨x, hcell, hx⟩
        · rw [regularProcess_of_not_skip mapa hs, foldMapa_eq_map,
            List.getElem?_map, hcell, Option.map_some']
          refine ⟨applyMapa mapa x, rfl, ?_⟩
          rcases applyMapa_cases mapa x with ⟨p, hp, he⟩ | ⟨he, -⟩
          · rw [he]; simp
          · rw [he]; exact hx
  obtain ⟨z, hz, hzn⟩ := hreg
  -- the checkbox stage only writes "Sim"/"Não"
  by_cases hin : camposCheckbox.contains (regStage col).name = true
  · rw [cbStage_eq_pos hin]
    show ∃ y, (checkboxProcess (regStage col).cells)[i]? = some y ∧ y ≠ Cell.null
    by_cases hja : cbJaMapeado (regStage col).cells = true
    · rw [checkboxProcess_of_ja hja]; exact ⟨z, hz, hzn⟩
    · by_cases hany : (regStage col).cells.any maskSim = true
      · rw [checkboxProcess_applied hja hany, List.getElem?_map, hz,
          Option.map_some']
        exact ⟨cbMapCell z, rfl, cbMapCell_ne_null hzn⟩
      · rw [checkboxProcess_of_none (Bool.eq_false_iff.mpr hany)]
        exact ⟨z, hz, hzn⟩
  · rw [cbStage_eq_neg hin]; exact ⟨z, hz, hzn⟩

/-!  ## Claim theorems -/

/-- Claim C3 (confirmed): the categorical mapper is idempotent — applying
`aplicar_categorias_completo` to its own output changes nothing. -/
theorem aplicar_categorias_idempotente (df : Df) :
    aplicarCategoriasCompleto (aplicarCategoriasCompleto df) =
      aplicarCategoriasCompleto df := by
  show Df.mk ((df.cols.map processCol).map processCol) =
    Df.mk (df.cols.map processCol)
  rw [List.map_map]
  exact congrArg Df.mk (List.map_congr_left (fun c _ => processCol_idem c))

/-- Claim C1, as amended (corrected): the mapper rewrites the source
column in place — a cell holding a code of its column's category becomes
that code's label, a null cell stays null, and a non-null cell is never
rewritten to null (the rewritten column is null exactly where the source
was); no `_desc` column is involved.  What an unmapped non-null cell
becomes is the subject of claim C2. -/
theorem aplicar_mapeia_no_lugar :
    (∀ (df : Df) (j i : Nat) (col : Col) (mapa : Mapa) (codigo descricao : String),
      df.cols[j]? = some col →
      categorias.lookup col.name = some mapa →
      (codigo, descricao) ∈ mapa →
      col.cells[i]? = some (Cell.cstr codigo) →
      (aplicarCategoriasCompleto df).cellAt j i = some (Cell.cstr descricao)) ∧
    (∀ (df : Df) (j i : Nat) (col : Col),
      df.cols[j]? = some col →
      col.cells[i]? = some Cell.null →
      (aplicarCategoriasCompleto df).cellAt j i = some Cell.null) ∧
    (∀ (df : Df) (j i : Nat) (col : Col) (x : Cell),
      df.cols[j]? = some col →
      col.cells[i]? = some x → x ≠ Cell.null →
      ∃ y, (aplicarCategoriasCompleto df).cellAt j i = some y ∧
        y ≠ Cell.null) := by
  refine ⟨?_, ?_, ?_⟩
  · intro df j i col mapa codigo descricao hcol hlk hcd hcell
    rw [Df.cellAt, aplicar_cols_getElem, hcol, Option.map_some', Option.some_bind]
    exact processCol_cell_code hlk hcd hcell
  · intro df j i col hcol hcell
    rw [Df.cellAt, aplicar_cols_getElem, hcol, Option.map_some', Option.some_bind]
    exact processCol_cell_null hcell
  · intro df j i col x hcol hcell hx
    rw [Df.cellAt, aplicar_cols_getElem, hcol, Option.map_some', Option.some_bind]
    exact processCol_cell_nonnull hcell hx

/-- Witness for the amended claim C1 at a concrete frame: code `"1"` in
`CS_SEXO` becomes `"Masculino"`, the null cell stays null, and the
non-null unmapped cell stays non-null. -/
theorem aplicar_mapeia_no_lugar_witness :
    (aplicarCategoriasCompleto exDfSexo).cellAt 0 0 = some (Cell.cstr "Masculino") ∧
      (aplicarCategoriasCompleto exDfSexo).cellAt 0 2 = some Cell.null ∧
      (∃ y, (aplicarCategoriasCompleto exDfSexo).cellAt 0 1 = some y ∧
        y ≠ Cell.null) :=
  ⟨aplicar_mapeia_no_lugar.1 exDfSexo 0 0
      ⟨"CS_SEXO", Dtype.object, [Cell.cstr "1", Cell.cstr "7", Cell.null]⟩
      [("1", "Masculino"), ("2", "Feminino"), ("9", "Ignorado")]
      "1" "Masculino" (by decide) (by decide) (by decide) (by decide),
    aplicar_mapeia_no_lugar.2.1 exDfSexo 0 2
      ⟨"CS_SEXO", Dtype.object, [Cell.cstr "1", Cell.cstr "7", Cell.null]⟩
      (by decide) (by decide),
    aplicar_mapeia_no_lugar.2.2 exDfSexo 0 1
      ⟨"CS_SEXO", Dtype.object, [Cell.cstr "1", Cell.cstr "7", Cell.null]⟩
      (Cell.cstr "7") (by decide) (by decide) (by decide)⟩

/-- Counterexample to claim C1 as stated: on a concrete frame the mapper
creates no `CS_SEXO_desc` column (the only column is still `CS_SEXO`),
and the unmapped value `"7"` is left in place rather than being null. -/
theorem aplicar_desc_counterexample :
    (aplicarCategoriasCompleto exDfSexo).colNames = ["CS_SEXO"] ∧
      "CS_SEXO_desc" ∉ (aplicarCategoriasCompleto exDfSexo).colNames ∧
      (aplicarCategoriasCompleto exDfSexo).cellAt 0 1 = some (Cell.cstr "7") := by
  refine ⟨?_, ?_, ?_⟩ <;> decide

/-- Claim C2, as amended (corrected): outside the `campos_checkbox`
columns, a cell matched by no code of its column's category (its column
possibly having none) keeps its value. -/
theorem aplicar_preserva_nao_mapeados
    (df : Df) (j i : Nat) (col : Col) (x : Cell)
    (hcol : df.cols[j]? = some col)
    (hcb : col.name ∉ camposCheckbox)
    (hcell : col.cells[i]? = some x)
    (hnm : ∀ p ∈ (categorias.lookup col.name).getD [], cellMatches x p.1 = false) :
    (aplicarCategoriasCompleto df).cellAt j i = some x := by
  rw [Df.cellAt, aplicar_cols_getElem, hcol, Option.map_some', Option.some_bind]
  rw [processCol]
  have hreg : (regStage col).cells[i]? = some x ∧ (regStage col).name = col.name := by
    refine ⟨?_, regStage_name col⟩
    rcases hlk : categorias.lookup col.name with _ | mapa
    · rw [regStage_eq_none hlk]; exact hcell
    · by_cases hmt : mapa = []
      · rw [regStage_eq_empty hlk hmt]; exact hcell
      · rw [regStage_eq_some hlk hmt]
        show (regularProcess mapa col.cells)[i]? = _
        by_cases hs : skipCategoria col.cells
        · rw [regularProcess_of_skip mapa hs]; exact hcell
        · rw [regularProcess_of_not_skip mapa hs, foldMapa_eq_map,
            List.getElem?_map, hcell, Option.map_some',
            applyMapa_of_forall_not mapa x (by rw [hlk] at hnm; exact hnm)]
  have hnin : ¬camposCheckbox.contains (regStage col).name = true := by
    rw [hreg.2]
    intro hc
    exact hcb (List.elem_iff.mp hc)
  rw [cbStage_eq_neg hnin]
  exact hreg.1

/-- Witness for the amended claim C2: the unmapped code `"7"` in
`CS_SEXO` (not a checkbox column) is preserved. -/
theorem aplicar_preserva_nao_mapeados_witness :
    (aplicarCategoriasCompleto exDfSexo).cellAt 0 1 = some (Cell.cstr "7") :=
  aplicar_preserva_nao_mapeados exDfSexo 0 1
    ⟨"CS_SEXO", Dtype.object, [Cell.cstr "1", Cell.cstr "7", Cell.null]⟩
    (Cell.cstr "7") (by decide) (by decide) (by decide) (by decide)

/-- Counterexample to claim C2 as stated: in the checkbox column
`PCR_SARS2`, whose category table is empty, the unmapped value `"2"` is
rewritten to `"Não"` instead of being retained. -/
theorem aplicar_checkbox_counterexample :
    (aplicarCategoriasCompleto exDfPcr).cellAt 0 1 = some (Cell.cstr "Não") ∧
      Cell.cstr "Não" ≠ Cell.cstr "2" ∧
      categorias.lookup "PCR_SARS2" = none := by
  refine ⟨?_, ?_, ?_⟩ <;> decide

/-!  Row-selection lemmas shared by `drop_duplicates` and the filters. -/

/-- Generic: reading a mapped list through `range`-indices is mapping. -/
theorem range_map_getD {α : Type} (l : List Nat) (f : Nat → α) :
    (List.range l.length).map (fun j => f (l.getD j 0)) = l.map f := by
  apply List.ext_getElem?
  intro k
  rw [List.getElem?_map, List.getElem?_map]
  by_cases hk : k < l.length
  · rw [List.getElem?_range hk, Option.map_some']
    have : l[k]? = some l[k] := List.getElem?_eq_getElem hk
    rw [this, Option.map_some']
    have : l.getD k 0 = l[k] := by
      rw [List.getD_eq_getElem?_getD, this, Option.getD_some]
    rw [this]
  · rw [List.getElem?_eq_none (by simpa using Nat.le_of_not_lt hk),
      List.getElem?_eq_none (by simpa using Nat.le_of_not_lt hk)]
    rfl

theorem selectRows_rowAt (df : Df) (idxs : List Nat) (j : Nat)
    (hj : j < idxs.length) :
    (df.selectRows idxs).rowAt j = df.rowAt (idxs.getD j 0) := by
  rw [Df.rowAt, Df.rowAt, Df.selectRows, List.map_map]
  refine List.map_congr_left (fun c _ => ?_)
  show (idxs.map (fun i => c.cells.getD i Cell.null)).getD j Cell.null = _
  rw [List.getD_eq_getElem?_getD, List.getElem?_map]
  have hj2 : idxs[j]? = some idxs[j] := List.getElem?_eq_getElem hj
  rw [hj2, Option.map_some', Option.getD_some]
  have : idxs.getD j 0 = idxs[j] := by
    rw [List.getD_eq_getElem?_getD, hj2, Option.getD_some]
  rw [this]

theorem selectRows_nRows (df : Df) (idxs : List Nat) (h : df.cols ≠ []) :
    (df.selectRows idxs).nRows = idxs.length := by
  obtain ⟨c, cs, hcc⟩ := List.exists_cons_of_ne_nil h
  simp [Df.selectRows, Df.nRows, hcc]

/-- Selecting rows by indices yields exactly the indexed rows, in order. -/
theorem selectRows_rows (df : Df) (idxs : List Nat) (h : df.cols ≠ []) :
    (df.selectRows idxs).rows = idxs.map df.rowAt := by
  rw [Df.rows, selectRows_nRows df idxs h, ← range_map_getD idxs df.rowAt]
  refine List.map_congr_left (fun j hj => ?_)
  rw [List.mem_range] at hj
  exact selectRows_rowAt df idxs j hj

/-- Every row of the original frame indexed below `nRows` is a member of
`df.rows`. -/
theorem rowAt_mem_rows {df : Df} {i : Nat} (hi : i < df.nRows) :
    df.rowAt i ∈ df.rows :=
  List.mem_map.mpr ⟨i, List.mem_range.mpr hi, rfl⟩

/-- Generic: mapping a strictly ordered index list through a function that
separates its members gives a duplicate-free list. -/
theorem nodup_map_of_pairwise_mem {α : Type} {l : List Nat} {f : Nat → α}
    (hp : l.Pairwise (· < ·))
    (h : ∀ i ∈ l, ∀ j ∈ l, i < j → f i ≠ f j) : (l.map f).Nodup := by
  induction l with
  | nil => simp
  | cons a l ih =>
    rw [List.map_cons, List.nodup_cons]
    rw [List.pairwise_cons] at hp
    constructor
    · intro hmem
      obtain ⟨j, hj, hfe⟩ := List.mem_map.mp hmem
      exact h a (List.mem_cons_self a l) j (List.mem_cons_of_mem a hj)
        (hp.1 j hj) hfe.symm
    · exact ih hp.2 (fun i hi j hj hij =>
        h i (List.mem_cons_of_mem a hi) j (List.mem_cons_of_mem a hj) hij)

/-- An earlier row is inside the `take` window of a later index. -/
theorem rowAt_mem_rows_take {df : Df} {i j : Nat} (hij : i < j)
    (hi : i < df.nRows) : df.rowAt i ∈ df.rows.take j := by
  rw [Df.rows, ← List.map_take, List.take_range]
  exact List.mem_map.mpr ⟨i, List.mem_range.mpr (Nat.lt_min.mpr ⟨hij, hi⟩), rfl⟩

/-- The kept indices of `drop_duplicates` are exactly the first
occurrences. -/
theorem mem_dedupKeepIdx {df : Df} {i : Nat} :
    i ∈ df.dedupKeepIdx ↔ i < df.nRows ∧ df.rowAt i ∉ df.rows.take i := by
  rw [Df.dedupKeepIdx, List.mem_filter, List.mem_range]
  simp

/-- Claim C6, amended part: the deduplication step returns pairwise
distinct rows, each of which is a row of the input. -/
theorem dropDuplicates_spec (df : Df) :
    df.dropDuplicates.rows.Nodup ∧ ∀ r ∈ df.dropDuplicates.rows, r ∈ df.rows := by
  by_cases hc : df.cols = []
  · have : df.dropDuplicates.rows = [] := by
      rw [Df.dropDuplicates, Df.selectRows, hc]
      rfl
    rw [this]
    exact ⟨List.nodup_nil, by simp⟩
  · have hrows : df.dropDuplicates.rows = df.dedupKeepIdx.map df.rowAt :=
      selectRows_rows df df.dedupKeepIdx hc
    constructor
    · rw [hrows]
      refine nodup_map_of_pairwise_mem
        (List.Pairwise.filter _ (List.pairwise_lt_range df.nRows)) ?_
      intro i hi j hj hij he
      rw [mem_dedupKeepIdx] at hi hj
      exact hj.2 (he ▸ rowAt_mem_rows_take hij hi.1)
    · intro r hr
      rw [hrows] at hr
      obtain ⟨i, hi, rfl⟩ := List.mem_map.mp hr
      exact rowAt_mem_rows (mem_dedupKeepIdx.mp hi).1

/-- Counterexample to claim C6 as stated: after the whole `limpar_dados`,
two rows that differed only in case collapse, so the returned table holds
two identical rows; and the text normalisation alters rows, so a returned
row need not occur in the input. -/
theorem limpar_dados_counterexample :
    (limparDados exDfCase).rows = [[Cell.cstr "A"], [Cell.cstr "A"]] ∧
      ¬(limparDados exDfCase).rows.Nodup ∧
      (limparDados exDfCaseB).rows = [[Cell.cstr "B"]] ∧
      [Cell.cstr "B"] ∉ exDfCaseB.rows := by
  refine ⟨?_, ?_, ?_, ?_⟩ <;> decide

/-- Claim C8: after `limpar_dados` no object-dtype column holds a null —
the normalisation turns a null into the literal string `"NAN"`
(`str(NaN) = "nan"`, stripped and upper-cased). -/
theorem limpar_dados_sem_nulos :
    (∀ (df : Df) (col : Col), col ∈ (limparDados df).cols →
      col.dtype = Dtype.object → ∀ c ∈ col.cells, c ≠ Cell.null) ∧
    normalizeCell Cell.null = Cell.cstr "NAN" := by
  constructor
  · intro df col hcol hdt c hc
    rw [limparDados, normalizeTextCols] at hcol
    obtain ⟨c0, -, rfl⟩ := List.mem_map.mp hcol
    by_cases hd : c0.dtype = Dtype.object
    · rw [if_pos hd] at hc hdt
      obtain ⟨x, -, rfl⟩ := List.mem_map.mp hc
      rw [normalizeCell]
      simp
    · rw [if_neg hd] at hc hdt
      exact absurd hdt hd
  · decide

/-- Witness for claim C8 on a concrete frame: the null of `CS_SEXO`
became the non-null string `"NAN"`. -/
theorem limpar_dados_sem_nulos_witness :
    (Cell.cstr "NAN" ≠ Cell.null) ∧
      (∃ col ∈ (limparDados exDfSexo).cols, Cell.cstr "NAN" ∈ col.cells) :=
  ⟨limpar_dados_sem_nulos.1 exDfSexo
      ⟨"CS_SEXO", Dtype.object, [Cell.cstr "1", Cell.cstr "7", Cell.cstr "NAN"]⟩
      (by decide) (by decide) (Cell.cstr "NAN") (by decide),
    ⟨⟨"CS_SEXO", Dtype.object, [Cell.cstr "1", Cell.cstr "7", Cell.cstr "NAN"]⟩,
      by decide, by decide⟩⟩

/-- Claim C9: the `TEMPO_UTI` filter keeps exactly the rows whose
`TEMPO_UTI` cell is not strictly greater than 160 — in particular every
null cell (`NaN > 160` is false) and every value at most 160. -/
theorem filtrar_tempo_uti_spec (df : Df) (tcol : Col)
    (hfind : df.findCol "TEMPO_UTI" = some tcol)
    (_hnum : ∀ c ∈ tcol.cells, c.numericLike = true) :
    (filtrarTempoUti df).rows =
      ((List.range df.nRows).filter
        (fun i => !cellGt160 (tcol.cells.getD i Cell.null))).map df.rowAt ∧
    cellGt160 Cell.null = false ∧
    (∀ q : Int, cellGt160 (Cell.cnum q) = decide (q > 160)) := by
  refine ⟨?_, rfl, fun q => rfl⟩
  have hne : df.cols ≠ [] :=
    List.ne_nil_of_mem (List.mem_of_find?_eq_some hfind)
  have : filtrarTempoUti df = df.selectRows
      ((List.range df.nRows).filter
        (fun i => !cellGt160 (tcol.cells.getD i Cell.null))) := by
    simp only [filtrarTempoUti, hfind]
  rw [this]
  exact selectRows_rows df _ hne

/-- Witness for claim C9 on a concrete frame: the row with `TEMPO_UTI`
200 is dropped; the rows with 10, null and 160 are kept in order. -/
theorem filtrar_tempo_uti_witness :
    (filtrarTempoUti exDfUti).rows =
      ((List.range exDfUti.nRows).filter
        (fun i => !cellGt160 ((Col.mk "TEMPO_UTI" Dtype.numeric
          [Cell.cnum 10, Cell.cnum 200, Cell.null, Cell.cnum 160]).cells.getD i
            Cell.null))).map exDfUti.rowAt ∧
    (filtrarTempoUti exDfUti).rows =
      [exDfUti.rowAt 0, exDfUti.rowAt 2, exDfUti.rowAt 3] :=
  ⟨(filtrar_tempo_uti_spec exDfUti
      ⟨"TEMPO_UTI", Dtype.numeric,
        [Cell.cnum 10, Cell.cnum 200, Cell.null, Cell.cnum 160]⟩
      (by decide) (by decide)).1,
   by decide⟩

/-!  `filtrar_colunas_existentes` (claim C10). -/

/-- With duplicate-free column names, filtering the columns by one name
finds at most the `findCol` column. -/
theorem filter_name_nodup : ∀ (cols : List Col),
    (cols.map Col.name).Nodup → ∀ name : String,
      cols.filter (fun c => c.name = name) =
        (cols.find? (fun c => c.name = name)).toList
  | [], _, name => rfl
  | c :: rest, hnd, name => by
    rw [List.map_cons, List.nodup_cons] at hnd
    by_cases hc : c.name = name
    · rw [List.filter_cons_of_pos (by simpa using hc),
        List.find?_cons_of_pos _ (by simpa using hc)]
      have hrest : rest.filter (fun c => c.name = name) = [] := by
        rw [List.filter_eq_nil_iff]
        intro x hx hpx
        refine hnd.1 ?_
        rw [show c.name = x.name by rw [hc, of_decide_eq_true hpx]]
        exact List.mem_map.mpr ⟨x, hx, rfl⟩
      rw [hrest]
      rfl
    · rw [List.filter_cons_of_neg (by simpa using hc),
        List.find?_cons_of_neg _ (by simpa using hc)]
      exact filter_name_nodup rest hnd.2 name

/-- Flat-mapping option contents is filter-mapping. -/
theorem flatMap_toList_eq_filterMap {α β : Type} (f : α → Option β) :
    ∀ (l : List α), (l.flatMap (fun a => (f a).toList)) = l.filterMap f
  | [] => rfl
  | a :: rest => by
    rw [List.flatMap_cons, List.filterMap_cons,
      flatMap_toList_eq_filterMap f rest]
    cases f a
    · rfl
    · rfl

/-- Claim C10: `filtrar_colunas_existentes` is total and returns exactly
the requested columns that exist, in requested order, with their
contents. -/
theorem filtrar_colunas_spec (df : Df) (colunas : List String)
    (hnd : df.colNames.Nodup) :
    (filtrarColunasExistentes df colunas).colNames =
      colunas.filter (fun c => c ∈ df.colNames) ∧
    (filtrarColunasExistentes df colunas).cols =
      (colunas.filter (fun c => c ∈ df.colNames)).filterMap df.findCol := by
  have hcols : (filtrarColunasExistentes df colunas).cols =
      (colunas.filter (fun c => c ∈ df.colNames)).filterMap df.findCol := by
    rw [filtrarColunasExistentes]
    show (colunas.filter (fun c => c ∈ df.colNames)).flatMap
        (fun name => df.cols.filter (fun c => c.name = name)) = _
    have h1 : ∀ name, df.cols.filter (fun c => c.name = name) =
        ((fun name => df.findCol name) name).toList :=
      fun name => filter_name_nodup df.cols hnd name
    rw [List.flatMap, List.map_congr_left (fun name _ => h1 name), ← List.flatMap,
      flatMap_toList_eq_filterMap]
  refine ⟨?_, hcols⟩
  rw [Df.colNames, hcols]
  have hgen : ∀ (l : List String), (∀ n ∈ l, n ∈ df.colNames) →
      (l.filterMap df.findCol).map Col.name = l := by
    intro l
    induction l with
    | nil => intro _; rfl
    | cons n rest ih =>
      intro hmem
      have hsome : (df.findCol n).isSome := by
        rw [Df.findCol, List.find?_isSome]
        obtain ⟨col, hcol, hname⟩ :=
          List.mem_map.mp (hmem n (List.mem_cons_self n rest))
        exact ⟨col, hcol, by simpa using hname⟩
      obtain ⟨col, hcol⟩ := Option.isSome_iff_exists.mp hsome
      rw [List.filterMap_cons, hcol, List.map_cons,
        ih (fun m hm => hmem m (List.mem_cons_of_mem n hm))]
      have hcol2 : df.cols.find? (fun c => decide (c.name = n)) = some col := hcol
      have hp := List.find?_some hcol2
      have : col.name = n := of_decide_eq_true hp
      rw [this]
  refine hgen _ (fun n hn => ?_)
  exact of_decide_eq_true (List.mem_filter.mp hn).2

/-- Witness for claim C10 on a concrete frame: a request naming a missing
column does not fail, and the result keeps request order. -/
theorem filtrar_colunas_witness :
    (filtrarColunasExistentes exDfCsv ["IGNORADA", "FOO", "CS_SEXO"]).colNames =
      ["IGNORADA", "CS_SEXO"] :=
  by
    have h := (filtrar_colunas_spec exDfCsv ["IGNORADA", "FOO", "CS_SEXO"]
      (by decide)).1
    rw [h]
    decide

/-!  `carregar_csv_robusto` (claim C7). -/

/-- `findSome?` returns the image of the first element that succeeds. -/
theorem findSome?_first {α β : Type} (f : α → Option β) :
    ∀ (l : List α) (i : Nat) (cfg : α) (d : β),
      l[i]? = some cfg → f cfg = some d →
      (∀ k, k < i → ∀ cfg', l[k]? = some cfg' → f cfg' = none) →
      l.findSome? f = some d
  | [], i, cfg, d, hget, _, _ => by simp at hget
  | c :: rest, 0, cfg, d, hget, hf, _ => by
    obtain rfl : c = cfg := by simpa using hget
    rw [List.findSome?_cons, hf]
  | c :: rest, i + 1, cfg, d, hget, hf, hprev => by
    have hc : f c = none := hprev 0 (Nat.succ_pos i) c (by simp)
    rw [List.findSome?_cons, hc]
    exact findSome?_first f rest i cfg d (by simpa using hget) hf
      (fun k hk cfg' hget' =>
        hprev (k + 1) (Nat.succ_lt_succ hk) cfg' (by simpa using hget'))

/-- `findSome?` fails when every element fails. -/
theorem findSome?_none {α β : Type} (f : α → Option β) :
    ∀ (l : List α), (∀ cfg ∈ l, f cfg = none) → l.findSome? f = none
  | [], _ => rfl
  | c :: rest, h => by
    rw [List.findSome?_cons, h c (List.mem_cons_self c rest)]
    exact findSome?_none f rest (fun cfg hc => h cfg (List.mem_cons_of_mem c hc))

/-- Claim C7: the loader tries the fixed four-configuration list in
order; a missing file and an all-failing file both give `None`; the first
successful configuration's frame is returned, restricted to the
requested columns. -/
theorem carregar_csv_robusto_spec :
    (∀ (a : ArquivoCSV) (t : Nat), a.existe = false →
      carregarCsvRobusto a t = none) ∧
    (∀ (a : ArquivoCSV) (t : Nat), a.existe = true →
      (∀ cfg ∈ configsPadrao.take t, a.parse cfg = none) →
      carregarCsvRobusto a t = none) ∧
    (∀ (a : ArquivoCSV) (t i : Nat) (cfg : Config) (d : Df), a.existe = true →
      (configsPadrao.take t)[i]? = some cfg →
      a.parse cfg = some d →
      (∀ k, k < i → ∀ cfg', (configsPadrao.take t)[k]? = some cfg' →
        a.parse cfg' = none) →
      carregarCsvRobusto a t =
        some (filtrarColunasExistentes d colunasParaManter)) ∧
    configsPadrao.length = 4 := by
  refine ⟨?_, ?_, ?_, rfl⟩
  · intro a t hex
    rw [carregarCsvRobusto, hex]
    rfl
  · intro a t hex hall
    rw [carregarCsvRobusto, hex]
    show (match (configsPadrao.take t).findSome? a.parse with
      | some df => some (filtrarColunasExistentes df colunasParaManter)
      | none => none) = none
    rw [findSome?_none a.parse _ hall]
  · intro a t i cfg d hex hget hok hprev
    rw [carregarCsvRobusto, hex]
    show (match (configsPadrao.take t).findSome? a.parse with
      | some df => some (filtrarColunasExistentes df colunasParaManter)
      | none => none) = _
    rw [findSome?_first a.parse _ i cfg d hget hok hprev]

/-- Witness for claim C7: a concrete file parsed by the first
configuration, one parsed by no configuration, and one that is missing. -/
theorem carregar_csv_robusto_witness :
    carregarCsvRobusto exArquivo 4 =
      some (filtrarColunasExistentes exDfCsv colunasParaManter) ∧
    carregarCsvRobusto exArquivoRuim 4 = none ∧
    carregarCsvRobusto exArquivoAusente 4 = none :=
  ⟨carregar_csv_robusto_spec.2.2.1 exArquivo 4 0
      ⟨"latin1", some ";", none, false⟩ exDfCsv rfl (by decide) (by decide)
      (fun k hk cfg' _ => absurd hk (Nat.not_lt_zero k)),
    carregar_csv_robusto_spec.2.1 exArquivoRuim 4 rfl (fun cfg _ => rfl),
    carregar_csv_robusto_spec.1 exArquivoAusente 4 rfl⟩

/-!  `unificacao` row-count round trip (claim C5). -/

/-- Each frame's contribution to a concatenated column spans its own row
count. -/
theorem concat_contribution_length (name : String) (d : Df)
    (hwf : d.WellFormed) :
    (match d.findCol name with
     | some c => c.cells
     | none => List.replicate d.nRows Cell.null).length = d.nRows := by
  cases hf : d.findCol name
  · rw [List.length_replicate]
  · next c => exact hwf c (List.mem_of_find?_eq_some hf)

theorem uniqueKeepFirst_cons (x : String) (l : List String) :
    uniqueKeepFirst (x :: l) =
      x :: uniqueKeepFirst.uniqueKeepFirstGo l [x] := by
  rw [uniqueKeepFirst, uniqueKeepFirst.uniqueKeepFirstGo,
    if_neg (List.not_mem_nil x)]

/-- The row count of a concatenation of well-formed, non-column-less
frames is the sum of the row counts. -/
theorem concatDfs_nRows : ∀ (dfs : List Df),
    (∀ d ∈ dfs, d.cols ≠ [] ∧ d.WellFormed) →
    (concatDfs dfs).nRows = (dfs.map Df.nRows).sum
  | [], _ => rfl
  | d1 :: rest, h => by
    obtain ⟨c1, cs, hc1⟩ :=
      List.exists_cons_of_ne_nil (h d1 (List.mem_cons_self d1 rest)).1
    have hnames : concatColNames (d1 :: rest) =
        c1.name :: uniqueKeepFirst.uniqueKeepFirstGo
          (cs.map Col.name ++ rest.flatMap Df.colNames) [c1.name] := by
      rw [concatColNames, List.flatMap_cons]
      rw [show d1.colNames = c1.name :: cs.map Col.name by
        rw [Df.colNames, hc1, List.map_cons]]
      rw [List.cons_append, uniqueKeepFirst_cons]
    rw [concatDfs, hnames, List.map_cons]
    show (List.flatMap (d1 :: rest) (fun d =>
      match d.findCol c1.name with
      | some c => c.cells
      | none => List.replicate d.nRows Cell.null)).length = _
    rw [List.flatMap, List.length_flatten, List.map_map, List.map_cons,
      List.sum_cons]
    have harg : ∀ d ∈ (d1 :: rest),
        (List.length ∘ fun d : Df =>
          match d.findCol c1.name with
          | some c => c.cells
          | none => List.replicate d.nRows Cell.null) d = Df.nRows d := by
      intro d hd
      exact concat_contribution_length c1.name d (h d hd).2
    rw [List.map_cons] at *
    rw [harg d1 (List.mem_cons_self d1 rest)]
    have : (rest.map (List.length ∘ fun d : Df =>
        match d.findCol c1.name with
        | some c => c.cells
        | none => List.replicate d.nRows Cell.null)) = rest.map Df.nRows :=
      List.map_congr_left (fun d hd => harg d (List.mem_cons_of_mem d1 hd))
    rw [this, List.sum_cons]

/-- Claim C5: running the unification over a list of loadable files
concatenated with itself yields exactly double the row count. -/
theorem unificar_duplica_linhas (files : List ArquivoCSV)
    (hload : ∀ a ∈ files, ∃ d, carregarCsvRobusto a 4 = some d ∧
      d.cols ≠ [] ∧ d.WellFormed) :
    (unificar (files ++ files)).nRows = 2 * (unificar files).nRows := by
  have hsub : ∀ d ∈ files.filterMap (fun a => carregarCsvRobusto a 4),
      d.cols ≠ [] ∧ d.WellFormed := by
    intro d hd
    obtain ⟨a, ha, hda⟩ := List.mem_filterMap.mp hd
    obtain ⟨d', hd', hcols, hwf⟩ := hload a ha
    rw [hd'] at hda
    obtain rfl := Option.some_injective _ hda
    exact ⟨hcols, hwf⟩
  rw [unificar, unificar, List.filterMap_append]
  rw [concatDfs_nRows _ (fun d hd => by
    rcases List.mem_append.mp hd with hd | hd
    · exact hsub d hd
    · exact hsub d hd)]
  rw [concatDfs_nRows _ hsub, List.map_append, List.sum_append]
  omega

/-- Witness for claim C5 at a concrete file list. -/
theorem unificar_duplica_linhas_witness :
    (unificar ([exArquivo] ++ [exArquivo])).nRows = 2 * (unificar [exArquivo]).nRows :=
  unificar_duplica_linhas [exArquivo] (by
    intro a ha
    obtain rfl : a = exArquivo := by simpa using ha
    exact ⟨filtrarColunasExistentes exDfCsv colunasParaManter, by decide, by decide,
      by decide⟩)

/-!  String-level lemmas for the dictionary formatter (claim C4). -/

theorem dropWhile_idem {α : Type} (p : α → Bool) :
    ∀ (l : List α), (l.dropWhile p).dropWhile p = l.dropWhile p
  | [] => rfl
  | c :: l => by
    rw [List.dropWhile_cons]
    split
    · exact dropWhile_idem p l
    · next hc => rw [List.dropWhile_cons, if_neg hc]

theorem rstripChars_idem (l : List Char) :
    rstripChars (rstripChars l) = rstripChars l := by
  rw [rstripChars, rstripChars, List.reverse_reverse, dropWhile_idem]

/-- A list whose head is not whitespace is not left-stripped. -/
theorem dropWhile_cons_not_space {c : Char} {l : List Char}
    (h : isPySpace c = false) :
    (c :: l).dropWhile isPySpace = c :: l := by
  rw [List.dropWhile_cons, if_neg (by rw [h]; exact Bool.false_ne_true)]

/-- Stripping a right-stripped list whose head is not whitespace is the
identity. -/
theorem stripChars_rstripped {c : Char} {l : List Char}
    (h : isPySpace c = false) (hr : rstripChars (c :: l) = c :: l) :
    stripChars (c :: l) = c :: l := by
  rw [stripChars, dropWhile_cons_not_space h]
  exact hr

/-- A non-empty `takeWhile` pins the head. -/
theorem head_of_takeWhile_ne_nil {p : Char → Bool} :
    ∀ {l : List Char}, l.takeWhile p ≠ [] → ∃ c t, l = c :: t ∧ p c = true
  | [], h => absurd rfl h
  | c :: t, h => by
    rw [List.takeWhile_cons] at h
    by_cases hc : p c = true
    · exact ⟨c, t, rfl, hc⟩
    · rw [if_neg (by rw [Bool.eq_false_iff.mpr hc]; exact Bool.false_ne_true)] at h
      exact absurd rfl h

/-- A successful field match starts with a digit. -/
theorem matchCampoGen_head_digit
    {alts : List (List Char → Option (List Char × List Char))}
    {l : List Char} {g : List Char × List Char × List Char}
    (h : matchCampoGen alts l = some g) :
    ∃ c t, l = c :: t ∧ isDigitChar c = true := by
  rw [matchCampoGen] at h
  by_cases hds : (l.takeWhile isDigitChar).isEmpty = true
  · rw [if_pos hds] at h
    exact absurd h (by simp)
  · exact head_of_takeWhile_ne_nil
      (fun he => hds (by rw [he]; rfl))

/-- A successful field match implies the weak field-start test. -/
theorem matchCampoGen_imp_weak
    {alts : List (List Char → Option (List Char × List Char))}
    {l : List Char} {g : List Char × List Char × List Char}
    (h : matchCampoGen alts l = some g) : weakCampoStart l = true := by
  rw [matchCampoGen] at h
  rw [weakCampoStart, Bool.and_eq_true]
  by_cases hds : (l.takeWhile isDigitChar).isEmpty = true
  · rw [if_pos hds] at h
    exact absurd h (by simp)
  · rw [if_neg hds] at h
    refine ⟨by simpa using hds, ?_⟩
    rcases hdrop : l.drop (l.takeWhile isDigitChar).length with _ | ⟨c, t⟩
    · rw [hdrop] at h
      exact absurd h (by simp)
    · rw [hdrop] at h
      dsimp only at h ⊢
      by_cases hc : (c = '-' || c = '.') = true
      · exact hc
      · rw [if_neg (by rw [Bool.eq_false_iff.mpr hc]; exact Bool.false_ne_true)] at h
        exact absurd h (by simp)

/-- `campoAny` successes come from one of the three patterns. -/
theorem campoAny_elim {l : List Char} {g : List Char × List Char × List Char}
    (h : campoAny l = some g) :
    matchCampoGen altsCampo l = some g ∨ matchCampoGen altsNumero l = some g ∨
      matchCampoGen altsTabela l = some g := by
  rw [campoAny] at h
  rcases h1 : matchCampoGen altsCampo l with _ | g1
  · rw [h1] at h
    rcases h2 : matchCampoGen altsNumero l with _ | g2
    · rw [h2] at h
      exact Or.inr (Or.inr (by simpa [Option.orElse] using h))
    · rw [h2] at h
      have hg : g2 = g := by simpa [Option.orElse] using h
      exact Or.inr (Or.inl (by rw [hg]))
  · rw [h1] at h
    have hg : g1 = g := by simpa [Option.orElse] using h
    exact Or.inl (by rw [hg])

theorem campoAny_head_digit {l : List Char} {g : List Char × List Char × List Char}
    (h : campoAny l = some g) :
    ∃ c t, l = c :: t ∧ isDigitChar c = true := by
  rcases campoAny_elim h with h | h | h <;> exact matchCampoGen_head_digit h

theorem campoAny_imp_weak {l : List Char} {g : List Char × List Char × List Char}
    (h : campoAny l = some g) : weakCampoStart l = true := by
  rcases campoAny_elim h with h | h | h <;> exact matchCampoGen_imp_weak h

/-- The weak field-start test refutes any `campoAny` match. -/
theorem campoAny_eq_none_of_not_weak {l : List Char}
    (h : weakCampoStart l = false) : campoAny l = none := by
  rcases hc : campoAny l with _ | g
  · rfl
  · rw [campoAny_imp_weak hc] at h
    exact absurd h (by simp)

/-!  A line matched by a field pattern contains a character outside the
section class (the second letter of its type token), so it is never
taken for a section header. -/

theorem matchLit_prefix {lit s : List Char} {r : List Char × List Char}
    (h : matchLit lit s = some r) : ∃ t, s = lit ++ t := by
  rw [matchLit] at h
  by_cases hp : lit.isPrefixOf s
  · obtain ⟨t, ht⟩ := List.isPrefixOf_iff_prefix.mp hp
    exact ⟨t, ht.symm⟩
  · rw [if_neg hp] at h
    exact absurd h (by simp)

/-- Every alternative of the three field patterns only matches text
containing a non-section character. -/
theorem alts_bad_char :
    ∀ f ∈ altsCampo ++ altsNumero ++ altsTabela,
      ∀ (s : List Char) (r : List Char × List Char),
        f s = some r → ∃ c ∈ s, secaoChar c = false := by
  intro f hf s r h
  have hlit : ∀ (lit : List Char) (r' : List Char × List Char),
      matchLit lit s = some r' → ∀ c ∈ lit, secaoChar c = false →
        ∃ c ∈ s, secaoChar c = false := by
    intro lit r' hm c hc hbad
    obtain ⟨t, rfl⟩ := matchLit_prefix hm
    exact ⟨c, List.mem_append.mpr (Or.inl hc), hbad⟩
  simp only [altsCampo, altsNumero, altsTabela, List.mem_append,
    List.mem_cons, List.not_mem_nil, or_false] at hf
  rcases hf with ((hf | hf | hf | hf | hf | hf) | hf) | hf <;> subst hf
  · obtain ⟨t1, ht1, -⟩ := Option.bind_eq_some.mp h
    exact hlit _ _ ht1 'a' (by decide) (by decide)
  · exact hlit _ _ h 'a' (by decide) (by decide)
  · obtain ⟨t1, ht1, -⟩ := Option.bind_eq_some.mp h
    exact hlit _ _ ht1 'u' (by decide) (by decide)
  · exact hlit _ _ h 'ú' (by decide) (by decide)
  · obtain ⟨t1, ht1, -⟩ := Option.map_eq_some'.mp h
    exact hlit _ _ ht1 'a' (by decide) (by decide)
  · exact hlit _ _ h 'a' (by decide) (by decide)
  · exact hlit _ _ h 'ú' (by decide) (by decide)
  · exact hlit _ _ h 'a' (by decide) (by decide)

theorem wsTypeGo_bad {alts : List (List Char → Option (List Char × List Char))}
    (halts : ∀ f ∈ alts, ∀ (s : List Char) (r : List Char × List Char),
      f s = some r → ∃ c ∈ s, secaoChar c = false) :
    ∀ (s : List Char) (k : Nat) (r : List Char × List Char),
      wsTypeGo alts s k = some r → ∃ c ∈ s, secaoChar c = false := by
  intro s k
  induction k with
  | zero => intro r h; exact absurd h (by simp [wsTypeGo])
  | succ k ih =>
    intro r h
    rw [wsTypeGo] at h
    rcases hfind : alts.findSome? (fun f => f (s.drop (k + 1))) with _ | r'
    · rw [hfind] at h
      exact ih r h
    · rw [hfind] at h
      obtain ⟨f, hf, hfr⟩ := List.exists_of_findSome?_eq_some hfind
      obtain ⟨c, hc, hbad⟩ := halts f hf _ _ hfr
      exact ⟨c, List.mem_of_mem_drop hc, hbad⟩

theorem campoScanGo_bad {alts : List (List Char → Option (List Char × List Char))}
    (halts : ∀ f ∈ alts, ∀ (s : List Char) (r : List Char × List Char),
      f s = some r → ∃ c ∈ s, secaoChar c = false) :
    ∀ (fuel : Nat) (l : List Char) (t : Nat)
      (g : List Char × List Char × List Char),
      campoScanGo alts l t fuel = some g → ∃ c ∈ l, secaoChar c = false := by
  intro fuel
  induction fuel with
  | zero => intro l t g h; exact absurd h (by simp [campoScanGo])
  | succ fuel ih =>
    intro l t g h
    rw [campoScanGo] at h
    rcases hws : matchWsType alts (l.drop t) with _ | r
    · rw [hws] at h
      exact ih l (t + 1) g h
    · rw [matchWsType] at hws
      obtain ⟨c, hc, hbad⟩ := wsTypeGo_bad halts _ _ _ hws
      exact ⟨c, List.mem_of_mem_drop hc, hbad⟩

/-- A line matched by any of the three field patterns is not a section
header. -/
theorem campoAny_not_secao {l : List Char} {g : List Char × List Char × List Char}
    (h : campoAny l = some g) : matchSecao l = false := by
  have hbad : ∃ c ∈ l, secaoChar c = false := by
    rcases campoAny_elim h with h | h | h <;>
    · rw [matchCampoGen] at h
      by_cases hds : (l.takeWhile isDigitChar).isEmpty = true
      · rw [if_pos hds] at h
        exact absurd h (by simp)
      · rw [if_neg hds] at h
        rcases hdrop : l.drop (l.takeWhile isDigitChar).length with _ | ⟨c, t⟩
        · rw [hdrop] at h
          exact absurd h (by simp)
        · rw [hdrop] at h
          dsimp only at h
          by_cases hc : (c = '-' || c = '.') = true
          · rw [if_pos hc] at h
            refine campoScanGo_bad ?_ _ _ _ _ h
            intro f hf
            refine alts_bad_char f ?_
            simp only [List.mem_append]
            first
            | exact Or.inl (Or.inl hf)
            | exact Or.inl (Or.inr hf)
            | exact Or.inr hf
          · rw [if_neg hc] at h
            exact absurd h (by simp)
  obtain ⟨c, hc, hbad⟩ := hbad
  rw [matchSecao]
  by_cases he : l.isEmpty
  · rw [he]
    rfl
  · rw [Bool.eq_false_iff]
    intro hall
    rw [Bool.and_eq_true] at hall
    rw [List.all_eq_true] at hall
    rw [hall.2 c hc] at hbad
    exact absurd hbad (by simp)

/-!  Characterisation of the reattachment loop (claim C4). -/

/-- On continuation lines that neither look like a field start nor like a
section, followed by a field-header line, the reattachment loop merges
exactly the non-empty continuation lines and stops at the header — except
that a trailing blank continuation line becomes the stopping point. -/
theorem innerLoop_conts (h2 : List Char) (rest : List (List Char)) :
    ∀ (conts : List (List Char)) (desc : List Char),
      (∀ l ∈ conts, weakCampoStart (stripChars l) = false ∧
        matchSecao (stripChars l) = false) →
      weakCampoStart (stripChars h2) = true →
      (campoAny (stripChars h2)).isSome = true →
      innerLoop (conts ++ h2 :: rest) desc =
        (mergeDesc desc conts,
         match conts.getLast? with
         | some e =>
           if (stripChars e).isEmpty then e :: h2 :: rest else h2 :: rest
         | none => h2 :: rest)
  | [], desc, _, _, hcampo => by
    rw [List.nil_append, innerLoop.eq_def]
    dsimp only
    rcases hc : campoAny (stripChars h2) with _ | g
    · rw [hc] at hcampo
      exact absurd hcampo (by simp)
    · rw [if_pos (show (some g).isSome = true from rfl)]
      rfl
  | l :: conts, desc, hconts, hweak, hcampo => by
    have hl := hconts l (List.mem_cons_self l conts)
    have hnone : campoAny (stripChars l) = none :=
      campoAny_eq_none_of_not_weak hl.1
    have hmc : mergeDesc desc (l :: conts) =
        mergeDesc (if (stripChars l).isEmpty then desc
          else desc ++ ' ' :: stripChars l) conts := rfl
    rw [List.cons_append, innerLoop.eq_def]
    dsimp only
    rw [if_neg (by rw [hnone]; simp),
      if_neg (by rw [hl.2]; exact Bool.false_ne_true)]
    by_cases hse : (stripChars l).isEmpty = true
    · cases conts with
      | nil =>
        rw [if_pos (by
          rw [hse, List.nil_append, Bool.true_and]
          exact hweak)]
        have hnil : stripChars l = [] := by simpa using hse
        simp [mergeDesc, hnil]
      | cons l2 conts2 =>
        have hl2 := hconts l2 (List.mem_cons_of_mem l (List.mem_cons_self l2 conts2))
        rw [if_neg (by
          rw [hse, Bool.true_and, List.cons_append]
          show ¬weakCampoStart (stripChars l2) = true
          rw [hl2.1]
          exact Bool.false_ne_true)]
        rw [if_pos hse]
        rw [innerLoop_conts h2 rest (l2 :: conts2) desc
          (fun x hx => hconts x (List.mem_cons_of_mem l hx)) hweak hcampo]
        rw [hmc, if_pos hse, List.getLast?_cons_cons]
    · have hse2 : (stripChars l).isEmpty = false := Bool.eq_false_iff.mpr hse
      rw [if_neg (by rw [hse2]; simp)]
      rw [if_neg hse]
      rw [innerLoop_conts h2 rest conts (desc ++ ' ' :: stripChars l)
        (fun x hx => hconts x (List.mem_cons_of_mem l hx)) hweak hcampo]
      rw [hmc, if_neg hse]
      cases conts with
      | nil => simp [hse2]
      | cons l2 conts2 => rw [List.getLast?_cons_cons]

/-!  One-step unfoldings of the outer loop. -/

theorem formatarLoop_nil (acc : List (List Char)) : formatarLoop [] acc = acc := by
  rw [formatarLoop]

theorem formatarLoop_empty_step {l : List Char} (rest acc : List (List Char))
    (hne : (stripChars (rstripChars l)).isEmpty = true) :
    formatarLoop (l :: rest) acc = formatarLoop rest (acc ++ [[]]) := by
  rw [formatarLoop.eq_def]
  dsimp only
  rw [if_pos hne]

theorem formatarLoop_campo_step {l : List Char}
    {g : List Char × List Char × List Char} (rest acc : List (List Char))
    (hne : (stripChars (rstripChars l)).isEmpty = false)
    (hsec : matchSecao (stripChars (rstripChars l)) = false)
    (hg : campoAny (rstripChars l) = some g) :
    formatarLoop (l :: rest) acc =
      formatarLoop (innerLoop rest (stripChars g.2.2)).2
        (acc ++ [buildBlock (stripChars g.1) (stripChars g.2.1)
          (innerLoop rest (stripChars g.2.2)).1]) := by
  rw [formatarLoop.eq_def]
  dsimp only
  rw [if_neg (by rw [hne]; exact Bool.false_ne_true),
    if_neg (by rw [hsec]; exact Bool.false_ne_true), hg]

/-!  Strip-level facts about header and blank lines. -/

theorem not_space_of_digit {c : Char} (h : isDigitChar c = true) :
    isPySpace c = false := by
  by_cases hs : isPySpace c = true
  · rw [isPySpace] at hs
    simp only [Bool.or_eq_true, decide_eq_true_eq] at hs
    rcases hs with ((((rfl | rfl) | rfl) | rfl) | rfl) | rfl <;>
      exact absurd h (by decide)
  · exact Bool.eq_false_iff.mpr hs

/-- Any list is its right-strip followed by trailing whitespace. -/
theorem exists_append_rstrip (l : List Char) : ∃ w, l = rstripChars l ++ w := by
  refine ⟨(l.reverse.takeWhile isPySpace).reverse, ?_⟩
  rw [rstripChars, ← List.reverse_append, List.takeWhile_append_dropWhile,
    List.reverse_reverse]

/-- A line whose right-strip is matched by a field pattern strips, fully,
to that same right-strip. -/
theorem stripChars_eq_rstrip_of_campo {l : List Char}
    {g : List Char × List Char × List Char}
    (h : campoAny (rstripChars l) = some g) :
    stripChars l = rstripChars l := by
  obtain ⟨c, t, hct, hd⟩ := campoAny_head_digit h
  obtain ⟨w, hw⟩ := exists_append_rstrip l
  have hl : l = c :: (t ++ w) := by rw [hw, hct, List.cons_append]
  show rstripChars (l.dropWhile isPySpace) = rstripChars l
  rw [hl, dropWhile_cons_not_space (not_space_of_digit hd)]

/-- The right-strip of a field-matched right-stripped line is itself. -/
theorem stripChars_idem_of_campo {l : List Char}
    {g : List Char × List Char × List Char}
    (h : campoAny (rstripChars l) = some g) :
    stripChars (rstripChars l) = rstripChars l := by
  obtain ⟨c, t, hct, hd⟩ := campoAny_head_digit h
  rw [hct]
  refine stripChars_rstripped (not_space_of_digit hd) ?_
  rw [← hct, rstripChars_idem]

/-- A line stripping to nothing is all whitespace. -/
theorem all_space_of_strip_nil {l : List Char}
    (h : (stripChars l).isEmpty = true) : ∀ c ∈ l, isPySpace c = true := by
  have hnil : stripChars l = [] := by simpa using h
  rw [stripChars] at hnil
  have h2 : (l.dropWhile isPySpace).reverse.dropWhile isPySpace = [] := by
    simpa using congrArg List.reverse hnil
  rw [List.dropWhile_eq_nil_iff] at h2
  intro c hc
  rw [← List.takeWhile_append_dropWhile (p := isPySpace) (l := l),
    List.mem_append] at hc
  rcases hc with hc | hc
  · exact List.mem_takeWhile_imp hc
  · exact h2 c (List.mem_reverse.mpr hc)

/-- A blank line also blanks after the outer loop's right-strip. -/
theorem strip_rstrip_of_blank {l : List Char}
    (h : (stripChars l).isEmpty = true) :
    (stripChars (rstripChars l)).isEmpty = true := by
  have hall := all_space_of_strip_nil h
  have hr : rstripChars l = [] := by
    rw [rstripChars, List.reverse_eq_nil_iff, List.dropWhile_eq_nil_iff]
    intro c hc
    exact hall c (List.mem_reverse.mp hc)
  rw [hr]
  rfl

theorem formatarLoop_other_step {l : List Char} (rest acc : List (List Char))
    (hne : (stripChars (rstripChars l)).isEmpty = false)
    (hsec : matchSecao (stripChars (rstripChars l)) = false)
    (hnone : campoAny (rstripChars l) = none) :
    formatarLoop (l :: rest) acc = formatarLoop rest (acc ++ [rstripChars l]) := by
  rw [formatarLoop.eq_def]
  dsimp only
  rw [if_neg (by rw [hne]; exact Bool.false_ne_true),
    if_neg (by rw [hsec]; exact Bool.false_ne_true), hnone]

/-- Claim C4, as amended (corrected): given a field-header line, then
continuation lines that neither start like a field (digits then a dash or
dot, once stripped) nor form a section header, then a second field-header
line, the formatter emits one block holding exactly the non-empty
continuation lines merged into the first field's description — plus a
lone blank separator when the last continuation line is blank — and
resumes at the second header line without consuming it. -/
theorem formatar_reanexa (h1 h2 : List Char)
    (conts rest acc : List (List Char))
    (g g2 : List Char × List Char × List Char)
    (hg : campoAny (rstripChars h1) = some g)
    (hconts : ∀ l ∈ conts, weakCampoStart (stripChars l) = false ∧
      matchSecao (stripChars l) = false)
    (hg2 : campoAny (rstripChars h2) = some g2) :
    formatarLoop (h1 :: (conts ++ h2 :: rest)) acc =
      formatarLoop (h2 :: rest)
        (acc ++ [buildBlock (stripChars g.1) (stripChars g.2.1)
            (mergeDesc (stripChars g.2.2) conts)] ++
          (match conts.getLast? with
           | some e => if (stripChars e).isEmpty then [([] : List Char)] else []
           | none => [])) := by
  have hne : (stripChars (rstripChars h1)).isEmpty = false := by
    rw [stripChars_idem_of_campo hg]
    obtain ⟨c, t, hct, -⟩ := campoAny_head_digit hg
    rw [hct]
    rfl
  have hsec : matchSecao (stripChars (rstripChars h1)) = false := by
    rw [stripChars_idem_of_campo hg]
    exact campoAny_not_secao hg
  have hs2 : stripChars h2 = rstripChars h2 := stripChars_eq_rstrip_of_campo hg2
  have hweak2 : weakCampoStart (stripChars h2) = true := by
    rw [hs2]
    exact campoAny_imp_weak hg2
  have hsome2 : (campoAny (stripChars h2)).isSome = true := by
    rw [hs2, hg2]
    rfl
  rw [formatarLoop_campo_step _ _ hne hsec hg,
    innerLoop_conts h2 rest conts (stripChars g.2.2) hconts hweak2 hsome2]
  dsimp only
  rcases hlast : conts.getLast? with _ | e
  · rw [List.append_nil]
  · dsimp only
    by_cases hemp : (stripChars e).isEmpty = true
    · rw [if_pos hemp, if_pos hemp]
      rw [formatarLoop_empty_step (h2 :: rest) _ (strip_rstrip_of_blank hemp)]
    · rw [if_neg hemp, if_neg hemp, List.append_nil]

/-- Witness for the amended claim C4 at a concrete input: two
continuation lines are merged into the first field's block and the second
header starts afresh. -/
theorem formatar_reanexa_witness :
    formatarLoop ("1- CAMPO Varchar2(10) Descrição: parte um".data ::
        (["continua aqui".data, "e aqui".data] ++ ["2- OUTRO Date x".data])) [] =
      formatarLoop ["2- OUTRO Date x".data]
        ([] ++ [buildBlock (stripChars "1- CAMPO".data)
            (stripChars "Varchar2(10)".data)
            (mergeDesc (stripChars " Descrição: parte um".data)
              ["continua aqui".data, "e aqui".data])] ++
          (match ["continua aqui".data, "e aqui".data].getLast? with
           | some e => if (stripChars e).isEmpty then [([] : List Char)] else []
           | none => [])) := by
  have hw := formatar_reanexa "1- CAMPO Varchar2(10) Descrição: parte um".data
    "2- OUTRO Date x".data ["continua aqui".data, "e aqui".data] [] []
    ("1- CAMPO".data, "Varchar2(10)".data, " Descrição: parte um".data)
    ("2- OUTRO".data, "Date".data, " x".data)
    (by decide) (by decide) (by decide)
  exact hw

/-- Counterexample to claim C4 as stated, at a concrete input: the three
lines after the first field header match neither a field-header pattern
nor the section pattern, yet the formatter merges only the first of them
into the field block; the line `"2- foo"` (blocked by the blank line and
its digit-dash prefix) is emitted on its own instead of being merged. -/
theorem formatar_reanexa_counterexample :
    campoAny (stripChars "cont one".data) = none ∧
    matchSecao (stripChars "cont one".data) = false ∧
    campoAny (stripChars ([] : List Char)) = none ∧
    matchSecao (stripChars ([] : List Char)) = false ∧
    campoAny (stripChars "2- foo".data) = none ∧
    matchSecao (stripChars "2- foo".data) = false ∧
    campoAny (rstripChars "1- CAMPO Date desc".data) =
      some ("1- CAMPO".data, "Date".data, " desc".data) ∧
    campoAny (rstripChars "3- OUTRO Date x".data) =
      some ("3- OUTRO".data, "Date".data, " x".data) ∧
    formatarLinhas ["1- CAMPO Date desc".data, "cont one".data, [],
        "2- foo".data, "3- OUTRO Date x".data] =
      ["1- CAMPO\n    Tipo: Date\n    desc cont one".data, [], "2- foo".data,
       "3- OUTRO\n    Tipo: Date\n    x".data] ∧
    (formatarLinhas ["1- CAMPO Date desc".data, "cont one".data, [],
        "2- foo".data, "3- OUTRO Date x".data]).head? ≠
      some (buildBlock (stripChars "1- CAMPO".data) (stripChars "Date".data)
        (mergeDesc (stripChars " desc".data)
          ["cont one".data, [], "2- foo".data])) := by
  have heval : formatarLinhas ["1- CAMPO Date desc".data, "cont one".data, [],
      "2- foo".data, "3- OUTRO Date x".data] =
      ["1- CAMPO\n    Tipo: Date\n    desc cont one".data, [], "2- foo".data,
       "3- OUTRO\n    Tipo: Date\n    x".data] := by
    rw [formatarLinhas]
    rw [formatarLoop_campo_step (g := ("1- CAMPO".data, "Date".data, " desc".data))
      _ _ (by decide) (by decide) (by decide)]
    rw [show innerLoop ["cont one".data, [], "2- foo".data, "3- OUTRO Date x".data]
        (stripChars " desc".data) =
        ("desc cont one".data, ([] : List Char) :: ["2- foo".data, "3- OUTRO Date x".data])
      from by decide]
    dsimp only
    rw [formatarLoop_empty_step _ _ (by decide)]
    rw [formatarLoop_other_step _ _ (by decide) (by decide) (by decide)]
    rw [formatarLoop_campo_step (g := ("3- OUTRO".data, "Date".data, " x".data))
      _ _ (by decide) (by decide) (by decide)]
    rw [show innerLoop ([] : List (List Char)) (stripChars " x".data) =
        (stripChars " x".data, ([] : List (List Char))) from rfl]
    dsimp only
    rw [formatarLoop_nil]
    decide
  refine ⟨by decide, by decide, by decide, by decide, by decide, by decide,
    by decide, by decide, heval, ?_⟩
  rw [heval]
  decide

end SRAG
